import Mathlib

/-!
Verification development for the agentcord session/provider orchestration
core.  The definitions below are a shallow embedding of the TypeScript
source: JS `Map`s become insertion-ordered association lists, async
generators become pure functions returning the list of yielded events,
mutation becomes explicit state passing, thrown errors become `Except` /
`Option`, and JS numbers that only ever get added or compared are carried
as `Int`/`Nat` (no claim below depends on floating-point rounding or on
cosmetic number formatting).  External collaborators (file system paths,
tmux, the backend SDKs, Discord) are passed in as explicit oracle
functions, mirroring the boundaries described in the source.
-/

namespace Agentcord

/-! ## String helpers (utils.ts) -/

/-- Helper for `strContains`: is `pat` a prefix of any suffix? -/
def containsSubAux (pat : List Char) : List Char → Bool
  | [] => pat.isEmpty
  | c :: rest => pat.isPrefixOf (c :: rest) || containsSubAux pat rest

/-- JS `s.includes(pat)` (substring containment). -/
def strContains (s pat : String) : Bool :=
  containsSubAux pat.data s.data

/-- JS `s.toLowerCase()`, as a character-wise map. -/
def lowerString (s : String) : String :=
  ⟨s.data.map Char.toLower⟩

/-- One character of `sanitizeSessionName`: lowercase, then anything
outside `[a-z0-9-]` becomes a dash. -/
def sanitizeChar (c : Char) : Char :=
  let c := c.toLower
  if ('a' ≤ c ∧ c ≤ 'z') ∨ ('0' ≤ c ∧ c ≤ '9') ∨ c = '-' then c else '-'

/-- JS replace of the regex dash-plus (global) by one dash: collapse runs
of dashes to a single dash. -/
def collapseDashes : List Char → List Char
  | [] => []
  | [c] => [c]
  | c₁ :: c₂ :: rest =>
    if c₁ = '-' ∧ c₂ = '-' then collapseDashes (c₂ :: rest)
    else c₁ :: collapseDashes (c₂ :: rest)

/-- JS replace of the regex lead-or-trail-dash (global) by the empty
string, leading half: removes one leading dash (after collapsing, at most
one exists). -/
def dropLeadDash : List Char → List Char
  | '-' :: r => r
  | l => l

/-- Trailing-dash half of the same replacement. -/
def dropTrailDash (l : List Char) : List Char :=
  (dropLeadDash l.reverse).reverse

/-- utils.ts `sanitizeSessionName`: lowercase, replace disallowed chars by
`-`, collapse dash runs, trim a leading/trailing dash, truncate to 50. -/
def sanitizeSessionName (name : String) : String :=
  ⟨(dropTrailDash (dropLeadDash (collapseDashes (name.data.map sanitizeChar)))).take 50⟩

/-- JS `remaining.lastIndexOf (newline, bound)`: the largest index `i ≤ bound`
with `l[i] = newline`, if any. -/
def lastNewlineLe (l : List Char) (bound : Nat) : Option Nat :=
  (((l.take (bound + 1)).enum.filter (fun p => p.2 = '\n')).map (fun p => p.1)).getLast?

/-- Loop body of utils.ts `splitMessage`; the source `while` loop is given
explicit fuel (each iteration removes at least `maxLen / 2 > 0` characters,
so `remaining.length + 1` fuel always suffices). -/
def splitChunks (maxLen : Nat) : Nat → List Char → List (List Char)
  | 0, remaining => [remaining]
  | fuel + 1, remaining =>
    if remaining.isEmpty then []
    else if remaining.length ≤ maxLen then [remaining]
    else
      let cut :=
        match lastNewlineLe remaining maxLen with
        | none => maxLen
        | some i => if i < maxLen / 2 then maxLen else i
      let chunk := remaining.take cut
      let rest :=
        match remaining.drop cut with
        | '\n' :: r => r
        | r => r
      chunk :: splitChunks maxLen fuel rest

/-- utils.ts `splitMessage`: split text into chunks of at most `maxLen`
characters, preferring to break at a newline in the second half. -/
def splitMessage (text : String) (maxLen : Nat := 1900) : List String :=
  if text.length ≤ maxLen then [text]
  else (splitChunks maxLen (text.length + 1) text.data).map (fun l => ⟨l⟩)

/-! ## Insertion-ordered association lists (the JS `Map` semantics:
`set` updates in place or appends, `delete` removes, iteration follows
insertion order). -/

abbrev AList (α : Type) : Type := List (String × α)

namespace AList

def get? {α} (m : AList α) (k : String) : Option α :=
  ((List.find? (fun p => p.1 == k) m)).map (fun p => p.2)

def hasKey {α} (m : AList α) (k : String) : Bool :=
  (get? m k).isSome

def set {α} (m : AList α) (k : String) (v : α) : AList α :=
  if hasKey m k then m.map (fun p => if p.1 == k then (k, v) else p)
  else m ++ [(k, v)]

def erase {α} (m : AList α) (k : String) : AList α :=
  m.filter (fun p => p.1 != k)

end AList

/-! ## Data model (types.ts, providers/types.ts) -/

inductive ProviderName
  | claude
  | codex
deriving DecidableEq, Repr

inductive SessionMode
  | auto
  | plan
  | normal
deriving DecidableEq, Repr

/-- A live session record (types.ts `Session`).  The untyped
`_controller` slot holding the `AbortController` is modelled by the
boolean `controller` (presence of the handle); the codex policy strings
are carried verbatim. -/
structure Session where
  id : String
  channelId : String
  directory : String
  projectName : String
  provider : ProviderName
  tmuxName : String
  providerSessionId : Option String := none
  model : Option String := none
  sandboxMode : Option String := none
  approvalPolicy : Option String := none
  networkAccessEnabled : Option Bool := none
  agentPersona : Option String := none
  verbose : Bool := false
  mode : SessionMode := .auto
  isGenerating : Bool := false
  controller : Bool := false
  createdAt : Nat := 0
  lastActivity : Nat := 0
  messageCount : Nat := 0
  totalCost : Int := 0
deriving DecidableEq, Repr

/-- One persisted snapshot entry (types.ts `SessionPersistData`), with the
legacy `claudeSessionId` migration field. -/
structure SessionPersistData where
  id : String
  channelId : String
  directory : String
  projectName : String
  provider : Option ProviderName := none
  tmuxName : String := ""
  providerSessionId : Option String := none
  claudeSessionId : Option String := none
  model : Option String := none
  sandboxMode : Option String := none
  approvalPolicy : Option String := none
  networkAccessEnabled : Option Bool := none
  agentPersona : Option String := none
  verbose : Option Bool := none
  mode : Option SessionMode := none
  createdAt : Nat := 0
  lastActivity : Nat := 0
  messageCount : Nat := 0
  totalCost : Int := 0
deriving DecidableEq, Repr

structure FileChange where
  filePath : String
  changeKind : String
deriving DecidableEq, Repr

structure TodoItem where
  text : String
  completed : Bool
deriving DecidableEq, Repr

/-- The unified provider event vocabulary (providers/types.ts
`ProviderEvent`).  `costUsd` is carried as `Int` (no claim depends on
fractional cost arithmetic). -/
inductive ProviderEvent
  | textDelta (text : String)
  | toolStart (toolName toolInput : String)
  | toolResult (toolName result : String) (isError : Option Bool := none)
  | askUser (questionsJson : String)
  | task (action dataJson : String)
  | imageFile (filePath : String)
  | commandExecution (command output : String) (exitCode : Option Int) (status : String)
  | fileChange (changes : List FileChange)
  | reasoning (text : String)
  | todoList (items : List TodoItem)
  | sessionInit (providerSessionId : String)
  | result (success : Bool) (costUsd : Int) (durationMs numTurns : Nat) (errors : List String)
  | errorEvent (message : String)
deriving DecidableEq, Repr

/-- Feature support per provider, transcribed from
`ClaudeProvider.supports` and `CodexProvider.supports`. -/
def providerSupports : ProviderName → String → Bool
  | .claude, f => f ∈ ["tmux", "resume_from_terminal", "plugins",
      "ask_user_question", "mode_switching", "continue"]
  | .codex, f => f ∈ ["command_execution", "file_changes", "reasoning",
      "todo_list", "continue"]

/-! ## Session registry state (session-manager.ts) -/

/-- The module-level mutable state of session-manager.ts: the two `Map`s
plus the JSON snapshot store contents (`none` = no snapshot file).  The
store's queued write chain serializes writes within one process, so a
`saveSessions` is modelled as an immediate store update. -/
structure SMState where
  sessions : AList Session := []
  channelToSession : AList String := []
  store : Option (List SessionPersistData) := none
deriving DecidableEq, Repr

/-- The external collaborators `createSession` consults, passed as
oracles: path resolution/validation, directory existence, tmux probing,
the clock, and the codex policy defaults from config. -/
structure Env where
  resolvePath : String → String
  pathAllowed : String → Bool
  dirExists : String → Bool
  tmuxHasSession : String → Bool
  now : Nat
  codexSandboxMode : Option String := none
  codexApprovalPolicy : Option String := none
  codexNetworkAccessEnabled : Option Bool := none

def sessionPref : String := "agentcord-"

/-- session-manager.ts `isPlaceholderChannelId`: empty (falsy) or the
literal `pending`. -/
def isPlaceholderChannelId (channelId : String) : Bool :=
  channelId.isEmpty || channelId == "pending"

/-- The snapshot entry `persistSessionsNow` pushes for one live session,
normalizing `verbose`/`mode` to `undefined` when at their defaults. -/
def persistEntryOf (s : Session) : SessionPersistData :=
  { id := s.id
    channelId := s.channelId
    directory := s.directory
    projectName := s.projectName
    provider := some s.provider
    tmuxName := s.tmuxName
    providerSessionId := s.providerSessionId
    model := s.model
    sandboxMode := s.sandboxMode
    approvalPolicy := s.approvalPolicy
    networkAccessEnabled := s.networkAccessEnabled
    agentPersona := s.agentPersona
    verbose := if s.verbose then some true else none
    mode := if s.mode = .auto then none else some s.mode
    createdAt := s.createdAt
    lastActivity := s.lastActivity
    messageCount := s.messageCount
    totalCost := s.totalCost }

/-- session-manager.ts `persistSessionsNow`: serialize live sessions in
map order, skipping any session whose channel is still a placeholder. -/
def serializeSessions (st : SMState) : List SessionPersistData :=
  st.sessions.filterMap (fun p =>
    if isPlaceholderChannelId p.2.channelId then none
    else some (persistEntryOf p.2))

/-- session-manager.ts `saveSessions` (the queued write chain resolves to
one `persistSessionsNow` per call; failures are logged and swallowed, so
the successful-write case is the one modelled). -/
def saveSessions (st : SMState) : SMState :=
  { st with store := some (serializeSessions st) }

/-- session-manager.ts `getSession`. -/
def getSession (st : SMState) (id : String) : Option Session :=
  st.sessions.get? id

/-- session-manager.ts `getSessionByChannel` (the JS truthiness guard
`id ? sessions.get(id) : undefined` makes an empty-string id fail). -/
def getSessionByChannel (st : SMState) (channelId : String) : Option Session :=
  match st.channelToSession.get? channelId with
  | some id => if id.isEmpty then none else st.sessions.get? id
  | none => none

structure CreateSessionOptions where
  sandboxMode : Option String := none
  approvalPolicy : Option String := none
  networkAccessEnabled : Option Bool := none
  recoverExisting : Bool := false
deriving DecidableEq, Repr

/-- The id-deduplication `while` loop of `createSession`: probe
`sessions` (and, for tmux-mirrored providers, the multiplexer) and append
`-2`, `-3`, … until a free id is found.  The source loop is unbounded;
fuel exhaustion (`none`) models non-termination. -/
def dedupLoop (st : SMState) (env : Env) (usesTmux : Bool) (name : String) :
    String → String → Nat → Nat → Option (String × String)
  | _, _, _, 0 => none
  | id, tmuxName, suffix, fuel + 1 =>
    if st.sessions.hasKey id || (usesTmux && env.tmuxHasSession tmuxName) then
      let suffix := suffix + 1
      let id := sanitizeSessionName (name ++ "-" ++ toString suffix)
      let tmuxName := if usesTmux then sessionPref ++ id else tmuxName
      dedupLoop st env usesTmux name id tmuxName suffix fuel
    else some (id, tmuxName)

/-- session-manager.ts `createSession`.  The outer `Option` is the fuel
bound on the dedup loop (`none` = the source loop never terminates); the
`Except` carries the thrown validation errors.  tmux `new-session` is an
external side effect with no bearing on registry state. -/
def createSession (st : SMState) (env : Env)
    (name directory channelId projectName : String)
    (provider : ProviderName := .claude)
    (providerSessionId : Option String := none)
    (options : CreateSessionOptions := {})
    (fuel : Nat := 1000) :
    Option (Except String (SMState × Session)) :=
  let resolvedDir := env.resolvePath directory
  let effectiveOptions : CreateSessionOptions :=
    if provider = .codex then
      { sandboxMode := options.sandboxMode.orElse (fun _ => env.codexSandboxMode)
        approvalPolicy := options.approvalPolicy.orElse (fun _ => env.codexApprovalPolicy)
        networkAccessEnabled := options.networkAccessEnabled.orElse (fun _ => env.codexNetworkAccessEnabled) }
    else options
  if ¬ env.pathAllowed resolvedDir then
    some (.error ("Directory not in allowed paths: " ++ resolvedDir))
  else if ¬ env.dirExists resolvedDir then
    some (.error ("Directory does not exist: " ++ resolvedDir))
  else
    let usesTmux := providerSupports provider "tmux"
    let id₀ := sanitizeSessionName name
    let tmux₀ := if usesTmux then sessionPref ++ id₀ else ""
    let chosen : Option (Except String (String × String)) :=
      if options.recoverExisting then
        if st.sessions.hasKey id₀ then
          some (.error ("Session \"" ++ id₀ ++ "\" already exists"))
        else some (.ok (id₀, tmux₀))
      else
        match dedupLoop st env usesTmux name id₀ tmux₀ 1 fuel with
        | none => none
        | some p => some (.ok p)
    match chosen with
    | none => none
    | some (.error e) => some (.error e)
    | some (.ok (id, tmuxName)) =>
      let session : Session := {
        id := id
        channelId := channelId
        directory := resolvedDir
        projectName := projectName
        provider := provider
        tmuxName := tmuxName
        providerSessionId := providerSessionId
        sandboxMode := effectiveOptions.sandboxMode
        approvalPolicy := effectiveOptions.approvalPolicy
        networkAccessEnabled := effectiveOptions.networkAccessEnabled
        verbose := false
        mode := .auto
        isGenerating := false
        controller := false
        createdAt := env.now
        lastActivity := env.now
        messageCount := 0
        totalCost := 0 }
      let st := { st with sessions := st.sessions.set id session }
      let st :=
        if ¬ isPlaceholderChannelId channelId then
          saveSessions { st with channelToSession := st.channelToSession.set channelId id }
        else st
      some (.ok (st, session))

/-- session-manager.ts `linkChannel`. -/
def linkChannel (st : SMState) (sessionId channelId : String) : Except String SMState :=
  match st.sessions.get? sessionId with
  | none => .error ("Session \"" ++ sessionId ++ "\" not found")
  | some session =>
    let chans :=
      if ¬ isPlaceholderChannelId session.channelId then
        st.channelToSession.erase session.channelId
      else st.channelToSession
    let st := { st with
      sessions := st.sessions.set sessionId { session with channelId := channelId }
      channelToSession := chans.set channelId sessionId }
    .ok (saveSessions st)

/-- session-manager.ts `unlinkChannel`: remove the session addressed by
the channel (falling back to a linear scan), then persist. -/
def unlinkChannel (st : SMState) (channelId : String) : SMState :=
  let viaIndex := st.channelToSession.get? channelId
  let sessionId :=
    match viaIndex with
    | some id => some id
    | none => (List.find? (fun p => p.2.channelId == channelId) st.sessions).map (fun p => p.1)
  match sessionId with
  | none => st
  | some sid =>
    saveSessions { st with
      channelToSession := st.channelToSession.erase channelId
      sessions := st.sessions.erase sid }

/-- session-manager.ts `endSession`: signal the controller if generating
(bookkeeping unchanged by the signal itself), kill tmux externally, drop
the channel index entry unless placeholder, delete, persist. -/
def endSession (st : SMState) (id : String) : Except String SMState :=
  match st.sessions.get? id with
  | none => .error ("Session \"" ++ id ++ "\" not found")
  | some session =>
    let chans :=
      if ¬ isPlaceholderChannelId session.channelId then
        st.channelToSession.erase session.channelId
      else st.channelToSession
    .ok (saveSessions { st with channelToSession := chans, sessions := st.sessions.erase id })

/-- session-manager.ts `setModel`. -/
def setModel (st : SMState) (sessionId : String) (model : String) : SMState :=
  match st.sessions.get? sessionId with
  | none => st
  | some s => saveSessions { st with sessions := st.sessions.set sessionId { s with model := some model } }

/-- session-manager.ts `setVerbose`. -/
def setVerbose (st : SMState) (sessionId : String) (verbose : Bool) : SMState :=
  match st.sessions.get? sessionId with
  | none => st
  | some s => saveSessions { st with sessions := st.sessions.set sessionId { s with verbose := verbose } }

/-- session-manager.ts `setMode`. -/
def setMode (st : SMState) (sessionId : String) (mode : SessionMode) : SMState :=
  match st.sessions.get? sessionId with
  | none => st
  | some s => saveSessions { st with sessions := st.sessions.set sessionId { s with mode := mode } }

/-- session-manager.ts `setAgentPersona`. -/
def setAgentPersona (st : SMState) (sessionId : String) (persona : Option String) : SMState :=
  match st.sessions.get? sessionId with
  | none => st
  | some s => saveSessions { st with sessions := st.sessions.set sessionId { s with agentPersona := persona } }

/-- session-manager.ts `resetProviderSession`: clear the resume token and
persist. -/
def resetProviderSession (st : SMState) (sessionId : String) : SMState :=
  match st.sessions.get? sessionId with
  | none => st
  | some s => saveSessions { st with sessions := st.sessions.set sessionId { s with providerSessionId := none } }

/-! ## Loading the snapshot (session-manager.ts `loadSessions`) -/

/-- The live session built from a persisted entry (the object spread in
`loadSessions`, including the `claudeSessionId` and missing-provider
migrations and the `verbose`/`mode` defaults). -/
def sessionOfEntry (e : SessionPersistData) : Session :=
  { id := e.id
    channelId := e.channelId
    directory := e.directory
    projectName := e.projectName
    provider := e.provider.getD .claude
    tmuxName := e.tmuxName
    providerSessionId := e.providerSessionId.orElse (fun _ => e.claudeSessionId)
    model := e.model
    sandboxMode := e.sandboxMode
    approvalPolicy := e.approvalPolicy
    networkAccessEnabled := e.networkAccessEnabled
    agentPersona := e.agentPersona
    verbose := e.verbose.getD false
    mode := e.mode.getD .auto
    isGenerating := false
    controller := false
    createdAt := e.createdAt
    lastActivity := e.lastActivity
    messageCount := e.messageCount
    totalCost := e.totalCost }

def loadWarnPlaceholder (e : SessionPersistData) : String :=
  "Skipping invalid persisted session \"" ++ e.id ++ "\" (missing channel ID)."

def loadWarnDuplicate (e : SessionPersistData) : String :=
  "Skipping duplicate persisted session \"" ++ e.id ++ "\" (channel " ++ e.channelId ++ " already linked)."

/-- The entry loop of `loadSessions`: drop placeholder-channel entries and
entries whose channel an earlier entry already claimed (each with a
warning, setting the `cleaned` flag), insert the rest.  The tmux
recreation for claude entries is an external side effect.  Returns
(state, cleaned, warnings). -/
def loadEntries (st : SMState) : List SessionPersistData → SMState × Bool × List String
  | [] => (st, false, [])
  | e :: rest =>
    if isPlaceholderChannelId e.channelId then
      let (st', _, w) := loadEntries st rest
      (st', true, loadWarnPlaceholder e :: w)
    else if st.channelToSession.hasKey e.channelId then
      let (st', _, w) := loadEntries st rest
      (st', true, loadWarnDuplicate e :: w)
    else
      loadEntries { st with
        sessions := st.sessions.set e.id (sessionOfEntry e)
        channelToSession := st.channelToSession.set e.channelId e.id } rest

/-- session-manager.ts `loadSessions`: read the snapshot (missing file =
no-op), process the entries, and re-save if anything was dropped. -/
def loadSessions (st : SMState) : SMState × List String :=
  match st.store with
  | none => (st, [])
  | some data =>
    let (st', cleaned, warns) := loadEntries st data
    (if cleaned then saveSessions st' else st', warns)

/-! ## The generation lifecycle (session-manager.ts `sendPrompt`,
`continueSession`, `abortSession`).

The two async generators share their structure: a synchronous prologue
(reject when `isGenerating`, install a fresh `AbortController`, set the
flag, stamp activity), an event loop that re-yields provider events while
intercepting `session_init` and `result`, and a `finally` epilogue that
force-clears the flag and the handle and persists. -/

/-- The synchronous prologue of `sendPrompt` (everything up to the first
suspension point).  `none` in the second component = no error thrown. -/
def sendPromptStart (st : SMState) (sessionId : String) (now : Nat) :
    SMState × Option String :=
  match st.sessions.get? sessionId with
  | none => (st, some ("Session \"" ++ sessionId ++ "\" not found"))
  | some s =>
    if s.isGenerating then (st, some "Session is already generating")
    else
      let s' := { s with controller := true, isGenerating := true, lastActivity := now }
      ({ st with sessions := st.sessions.set sessionId s' }, none)

/-- The synchronous prologue of `continueSession`; the source repeats the
same statements verbatim. -/
def continueSessionStart (st : SMState) (sessionId : String) (now : Nat) :
    SMState × Option String :=
  match st.sessions.get? sessionId with
  | none => (st, some ("Session \"" ++ sessionId ++ "\" not found"))
  | some s =>
    if s.isGenerating then (st, some "Session is already generating")
    else
      let s' := { s with controller := true, isGenerating := true, lastActivity := now }
      ({ st with sessions := st.sessions.set sessionId s' }, none)

/-- The per-event interception in the `for await` loops of `sendPrompt`
and `continueSession` (identical in both): `session_init` stores the new
resume token (the empty string is coerced to `undefined` by the JS
or-with-undefined) and persists; `result` accumulates cost.  The second
component records whether `saveSessions` ran for this event. -/
def interceptStreamEvent (st : SMState) (sessionId : String) (e : ProviderEvent) :
    SMState × Bool :=
  match st.sessions.get? sessionId with
  | none => (st, false)
  | some s =>
    match e with
    | .sessionInit tok =>
      let s' := { s with providerSessionId := if tok.isEmpty then none else some tok }
      (saveSessions { st with sessions := st.sessions.set sessionId s' }, true)
    | .result _ costUsd _ _ _ =>
      let s' := { s with totalCost := s.totalCost + costUsd }
      ({ st with sessions := st.sessions.set sessionId s' }, false)
    | _ => (st, false)

/-- The `finally` epilogue of `sendPrompt` / `continueSession`: clear the
generating flag, stamp activity, drop the controller handle, persist. -/
def finishGeneration (st : SMState) (sessionId : String) (now : Nat) : SMState :=
  match st.sessions.get? sessionId with
  | none => st
  | some s =>
    let s' := { s with isGenerating := false, lastActivity := now, controller := false }
    saveSessions { st with sessions := st.sessions.set sessionId s' }

/-- session-manager.ts `abortSession`: signal the stored controller if
present (the signal itself changes no registry state), then force-clear
the generating flag and the handle if the session was generating,
returning whether any action was taken. -/
def abortSession (st : SMState) (sessionId : String) : SMState × Bool :=
  match st.sessions.get? sessionId with
  | none => (st, false)
  | some s =>
    if s.isGenerating then
      let s' := { s with isGenerating := false, controller := false }
      (saveSessions { st with sessions := st.sessions.set sessionId s' }, true)
    else (st, s.controller)

/-! ## The terminal-integrated adapter (providers/claude-provider.ts)

`sendPrompt`/`continueSession` run the SDK `query` in a retry loop:
`translateStream` translates the native message stream into
`ProviderEvent`s, and a reported turn failure with a still-present resume
token and no prior retry aborts translation with the `failed` flag set;
the outer loop then discards the token, emits a `session_init` with an
empty token and runs one fresh attempt.  The SDK itself is an oracle
`queryFn` from the resume option to the native message list, and the
JSON inspection of tool inputs (`extractImagePath`) is an oracle from
tool name and input to an optional image path. -/

/-- The `tool_result` block content shapes `translateStream` reads from a
native user message: a plain string or a list of sub-blocks. -/
inductive SDKTRContent
  | str (s : String)
  | blocks (subs : List (Option String))
deriving DecidableEq, Repr

/-- JS truthiness of `block.content` (absent and the empty string are
falsy, an array is truthy). -/
def trContentTruthy : Option SDKTRContent → Bool
  | none => false
  | some (.str s) => ¬ s.isEmpty
  | some (.blocks _) => true

/-- Flatten one `tool_result` content into text: a string contributes
itself, an array contributes its text sub-blocks (`some t` models a
`text` sub-block, `none` any other sub-block type). -/
def trContentText : SDKTRContent → String
  | .str s => s
  | .blocks subs => subs.foldl (fun acc sub => acc ++ sub.getD "") ""

/-- One content block of a native user message: a `tool_result` block
with its content, or anything else. -/
inductive SDKContentBlock
  | toolResultBlock (content : Option SDKTRContent)
  | otherBlock
deriving DecidableEq, Repr

/-- The partial-message stream events `translateStream` inspects. -/
inductive SDKStreamEvent
  | contentBlockStart (toolUse : Bool) (name : String)
  | textDeltaEv (text : String)
  | inputJsonDeltaEv (pJson : String)
  | contentBlockStop
  | otherStreamEvent
deriving DecidableEq, Repr

/-- The native SDK messages `translateStream` inspects, carrying exactly
the fields the source reads (optional fields keep their or-default
semantics). -/
inductive SDKMessage
  | systemInit (sessionId : String)
  | streamEvent (ev : SDKStreamEvent)
  | userMessage (content : Option (List SDKContentBlock))
  | resultMsg (subtypeSuccess : Bool) (totalCostUsd : Option Int)
      (durationMs numTurns : Option Nat) (errors : Option (List String))
  | otherMessage
deriving DecidableEq, Repr

def TASK_TOOLS : List String := ["TaskCreate", "TaskUpdate", "TaskList", "TaskGet"]

/-- JS truthiness of the optional resume id (`undefined` and the empty
string are falsy). -/
def truthyOpt : Option String → Bool
  | none => false
  | some s => ¬ s.isEmpty

/-- The accumulated tool-call state of `translateStream`. -/
structure ToolAcc where
  currentToolName : Option String := none
  currentToolInput : String := ""
deriving DecidableEq, Repr

/-- The `resultText` accumulation over a native user message's content
(`translateStream`, user-message case). -/
def userResultText : Option (List SDKContentBlock) → String
  | none => ""
  | some blocks =>
    blocks.foldl (fun acc b =>
      match b with
      | .toolResultBlock content =>
        if trContentTruthy content then acc ++ trContentText (content.getD (.str "")) else acc
      | .otherBlock => acc) ""

/-- The events yielded on a `content_block_stop` when a tool call was in
flight: dispatch on the tool name, then the image-path check. -/
def toolStopEvents (extractImage : String → String → Option String)
    (name input : String) : List ProviderEvent :=
  let main :=
    if name = "AskUserQuestion" then ProviderEvent.askUser input
    else if name ∈ TASK_TOOLS then ProviderEvent.task name input
    else ProviderEvent.toolStart name input
  match extractImage name input with
  | some path => [main, ProviderEvent.imageFile path]
  | none => [main]

/-- One message step of `translateStream`: the events yielded, the new
tool accumulator, and whether the failure-retry `break` fired. -/
def translateMsg (extractImage : String → String → Option String)
    (resumeId : Option String) (alreadyRetried : Bool)
    (acc : ToolAcc) : SDKMessage → List ProviderEvent × ToolAcc × Bool
  | .systemInit sid => ([.sessionInit sid], acc, false)
  | .streamEvent ev =>
    match ev with
    | .contentBlockStart toolUse name =>
      if toolUse then
        ([], { currentToolName := some (if name.isEmpty then "tool" else name),
               currentToolInput := "" }, false)
      else ([], acc, false)
    | .textDeltaEv t =>
      (if ¬ t.isEmpty then [.textDelta t] else [], acc, false)
    | .inputJsonDeltaEv pJson =>
      if ¬ pJson.isEmpty then
        ([], { acc with currentToolInput := acc.currentToolInput ++ pJson }, false)
      else ([], acc, false)
    | .contentBlockStop =>
      match acc.currentToolName with
      | some name => (toolStopEvents extractImage name acc.currentToolInput, {}, false)
      | none => ([], acc, false)
    | .otherStreamEvent => ([], acc, false)
  | .userMessage content =>
    let resultText := userResultText content
    (if ¬ resultText.isEmpty then [.toolResult "" resultText none] else [], acc, false)
  | .resultMsg subtypeSuccess totalCostUsd durationMs numTurns errors =>
    if ¬ subtypeSuccess ∧ ¬ alreadyRetried ∧ truthyOpt resumeId then
      ([], acc, true)
    else
      ([.result subtypeSuccess (totalCostUsd.getD 0) (durationMs.getD 0)
          (numTurns.getD 0) (errors.getD [])], acc, false)
  | .otherMessage => ([], acc, false)

/-- `translateStream` over a whole native message list: yielded events
plus the `failed` flag (the retry `break`). -/
def runTranslate (extractImage : String → String → Option String)
    (resumeId : Option String) (alreadyRetried : Bool) :
    List SDKMessage → ToolAcc → List ProviderEvent × Bool
  | [], _ => ([], false)
  | m :: rest, acc =>
    let (evs, acc', broke) := translateMsg extractImage resumeId alreadyRetried acc m
    if broke then (evs, true)
    else
      let (evs', f) := runTranslate extractImage resumeId alreadyRetried rest acc'
      (evs ++ evs', f)

/-- `ClaudeProvider.sendPrompt`: the retry `while` loop runs at most
twice, because `retried` is set before the only `continue`.  Returns the
yielded events and the log of resume options actually queried. -/
def claudeSendPrompt (queryFn : Option String → List SDKMessage)
    (extractImage : String → String → Option String)
    (providerSessionId : Option String) :
    List ProviderEvent × List (Option String) :=
  let (evs₁, failed₁) :=
    runTranslate extractImage providerSessionId false (queryFn providerSessionId) {}
  if failed₁ then
    let (evs₂, _) := runTranslate extractImage none true (queryFn none) {}
    (evs₁ ++ [ProviderEvent.sessionInit ""] ++ evs₂, [providerSessionId, none])
  else (evs₁, [providerSessionId])

/-- `ClaudeProvider.continueSession`: identical retry structure (the
continue-specific `query` options live inside the oracle). -/
def claudeContinueSession (queryFn : Option String → List SDKMessage)
    (extractImage : String → String → Option String)
    (providerSessionId : Option String) :
    List ProviderEvent × List (Option String) :=
  let (evs₁, failed₁) :=
    runTranslate extractImage providerSessionId false (queryFn providerSessionId) {}
  if failed₁ then
    let (evs₂, _) := runTranslate extractImage none true (queryFn none) {}
    (evs₁ ++ [ProviderEvent.sessionInit ""] ++ evs₂, [providerSessionId, none])
  else (evs₁, [providerSessionId])

/-! ## The sandboxed-agent adapter's AGENTS.md lifecycle
(codex-provider.ts `injectAgentsMd` / `restoreAgentsMd`).

The working directory's AGENTS.md is modelled as `Option String`
(contents, or `none` when the file does not exist). -/

def SENTINEL_START : String := "<!-- agentcord-persona-start -->"
def SENTINEL_END : String := "<!-- agentcord-persona-end -->"

/-- Index of the first occurrence of `pat` in `l`, if any (JS
`String.indexOf`). -/
def findSubIdx (pat : List Char) : List Char → Option Nat
  | [] => if pat.isEmpty then some 0 else none
  | c :: rest =>
    if pat.isPrefixOf (c :: rest) then some 0
    else (findSubIdx pat rest).map (· + 1)

/-- The non-greedy sentinel-block removal in `injectAgentsMd`: delete
from the first `SENTINEL_START` through the first following
`SENTINEL_END` plus an optional trailing newline; no match leaves the
text unchanged. -/
def removeSentinelBlock (s : String) : String :=
  let l := s.data
  match findSubIdx SENTINEL_START.data l with
  | none => s
  | some i =>
    let afterStart := l.drop (i + SENTINEL_START.data.length)
    match findSubIdx SENTINEL_END.data afterStart with
    | none => s
    | some j =>
      let blockEnd := i + SENTINEL_START.data.length + j + SENTINEL_END.data.length
      let tail :=
        match l.drop blockEnd with
        | '\n' :: r => r
        | r => r
      ⟨l.take i ++ tail⟩

/-- JS `parts.join(sep)`. -/
def joinSep (sep : String) : List String → String
  | [] => ""
  | [p] => p
  | p :: rest => p ++ sep ++ joinSep sep rest

/-- codex-provider.ts `injectAgentsMd`: with no parts, do nothing and
return `null`; otherwise write the sentinel block (appending to the
cleaned pre-existing contents when the file exists) and return the
original contents, or `null` when the file did not exist. -/
def injectAgentsMd (fileContents : Option String) (parts : List String) :
    Option String × Option String :=
  if parts.isEmpty then (fileContents, none)
  else
    let injected := SENTINEL_START ++ "\n" ++ joinSep "\n\n" parts ++ "\n" ++ SENTINEL_END
    match fileContents with
    | some original =>
      (some (removeSentinelBlock original ++ "\n" ++ injected ++ "\n"), some original)
    | none => (some (injected ++ "\n"), none)

/-- codex-provider.ts `restoreAgentsMd`: `null` original means the file
is deleted (the source comments this branch with "We created the file —
remove it"); otherwise the original contents are written back. -/
def restoreAgentsMd (_fileContents : Option String) (original : Option String) :
    Option String :=
  match original with
  | none => none
  | some o => some o

/-- The AGENTS.md effect of one `CodexProvider.sendPrompt` or
`continueSession` call: `injectAgentsMd` before the backend runs,
`restoreAgentsMd` in the `finally`, on every exit path (the backend
itself is not modelled as touching AGENTS.md). -/
def codexAgentsMdRun (fileContents : Option String) (parts : List String) :
    Option String :=
  let (fs₁, original) := injectAgentsMd fileContents parts
  restoreAgentsMd fs₁ original

/-! ## The Output Streamer (output-handler.ts)

Abort classification and the `result`-event branch of
`handleOutputStream`, plus the `MessageStreamer` state machine.  In the
single-scheduler model each method body runs atomically (there is no
suspension inside one modelled operation), so the `flushing` mutex is
never observed set at an operation boundary and the sends/edits inside a
method are applied in order. -/

def ABORT_PATTERNS : List String := ["abort", "cancel", "interrupt", "killed", "signal"]

/-- output-handler.ts `isAbortError` (the `string[]`-classifier used on a
`result` event's errors): some error, lowercased, contains one of the
abort keywords as a substring. -/
def isAbortError (errors : List String) : Bool :=
  errors.any (fun e => ABORT_PATTERNS.any (fun p => strContains (lowerString e) p))

/-- output-handler.ts `isAbortLike` (the classifier used on a thrown
stream error with a name and a message). -/
def isAbortLike (errName errMsg : String) : Bool :=
  errName == "AbortError" || ABORT_PATTERNS.any (fun p => strContains (lowerString errMsg) p)

def resetNotice : String :=
  "\n-# Session reset — next message will start a fresh provider session."

/-- The mode label lookup in the `result` branch (JS object lookup with
an `Auto` fallback). -/
def modeLabel (mode : String) : String :=
  if mode == "auto" then "Auto"
  else if mode == "plan" then "Plan"
  else if mode == "normal" then "Normal"
  else "Auto"

/-- Stand-in for the JS `toFixed` cost rendering in the status line (no
claim depends on the digits). -/
def formatCostUsd (c : Int) : String := toString c

/-- The duration rendering (`0` is falsy, hence `unknown`); the JS
seconds formatting is abstracted to a decimal millisecond count. -/
def formatDuration (d : Nat) : String :=
  if d = 0 then "unknown" else toString d ++ "ms"

/-- The status line of the `result` branch. -/
def statusLine (success : Bool) (costUsd : Int) (durationMs numTurns : Nat)
    (mode : String) : String :=
  if success then
    "-# $" ++ formatCostUsd costUsd ++ " | " ++ formatDuration durationMs ++ " | "
      ++ toString numTurns ++ " turns | " ++ modeLabel mode
  else
    "-# Error | $" ++ formatCostUsd costUsd ++ " | " ++ formatDuration durationMs ++ " | "
      ++ toString numTurns ++ " turns"

/-- The session-state effect of `handleOutputStream`'s `result` branch:
append the status line (and the error block on failure with errors);
then, on failure not classified as an abort, reset the provider session
(clearing the resume token via `resetProviderSession`) and append the
visible reset notice.  Returns the updated registry state and the list
of strings appended to the streamer. -/
def handleResultEvent (st : SMState) (sessionId : String)
    (success : Bool) (costUsd : Int) (durationMs numTurns : Nat)
    (errors : List String) (mode : String) : SMState × List String :=
  let app := ["\n" ++ statusLine success costUsd durationMs numTurns mode]
  let app :=
    if ¬ success ∧ ¬ errors.isEmpty then
      app ++ ["\n```\n" ++ joinSep "\n" errors ++ "\n```"]
    else app
  if ¬ success ∧ ¬ isAbortError errors then
    (resetProviderSession st sessionId, app ++ [resetNotice])
  else (st, app)

/-- One rendered Discord message: its content and whether it still
carries interactive controls (the stop-button row). -/
structure RMsg where
  content : String
  controls : Bool
deriving DecidableEq, Repr

/-- The `MessageStreamer` instance state: the channel's message list (a
handle is an index), the live message handle, the accumulated text, the
dirty flag, and whether the debounce timer is scheduled. -/
structure MSState where
  channel : List RMsg := []
  currentMessage : Option Nat := none
  currentText : String := ""
  dirty : Bool := false
  timer : Bool := false
deriving DecidableEq, Repr

def editMsg (ch : List RMsg) (i : Nat) (content : String) (controls : Bool) : List RMsg :=
  ch.set i ⟨content, controls⟩

def sendMsg (ch : List RMsg) (content : String) (controls : Bool) : List RMsg × Nat :=
  (ch ++ [⟨content, controls⟩], ch.length)

/-- `MessageStreamer.append`: accumulate text, mark dirty, schedule a
flush unless a timer is already pending (`flushing` is never set at an
operation boundary). -/
def appendText (s : MSState) (t : String) : MSState :=
  let s := { s with currentText := s.currentText ++ t, dirty := true }
  if s.timer then s else { s with timer := true }

/-- The body of `MessageStreamer.flush`, run atomically: snapshot the
text, clear dirty, finalize overflow chunks into earlier messages when
the text no longer fits, then edit or create the live message with the
last chunk and the stop control.  (The end-of-flush reschedule check sees
`dirty = false` in the atomic model and does nothing.) -/
def flushRun (s : MSState) : MSState :=
  if ¬ s.dirty then s
  else
    let text := s.currentText
    let s := { s with dirty := false }
    let chunks := splitMessage text
    let lastChunk := chunks.getLast?.getD ""
    let s :=
      if chunks.length > 1 then
        match s.currentMessage with
        | some i =>
          let ch := editMsg s.channel i (chunks.headD "") false
          let ch := ((chunks.drop 1).dropLast).foldl (fun ch c => (sendMsg ch c false).1) ch
          { s with channel := ch, currentMessage := none }
        | none => s
      else s
    match s.currentMessage with
    | some i => { s with channel := editMsg s.channel i lastChunk true }
    | none =>
      let (ch, idx) := sendMsg s.channel lastChunk true
      { s with channel := ch, currentMessage := some idx }

/-- The debounce timer firing: clear the timer slot, then flush. -/
def fireTimer (s : MSState) : MSState :=
  if s.timer then flushRun { s with timer := false } else s

/-- `MessageStreamer.finalize`: drain the timer, do a final flush of any
pending text without controls (creating a message only when the last
chunk is nonempty), or strip the controls from the settled message, then
drop the handle and reset the text. -/
def finalizeRun (s : MSState) : MSState :=
  let s := { s with timer := false }
  let s :=
    if s.dirty then
      let s := { s with dirty := false }
      let text := s.currentText
      let chunks := splitMessage text
      let lastChunk := chunks.getLast?.getD ""
      let s :=
        if chunks.length > 1 then
          match s.currentMessage with
          | some i =>
            let ch := editMsg s.channel i (chunks.headD "") false
            let ch := ((chunks.drop 1).dropLast).foldl (fun ch c => (sendMsg ch c false).1) ch
            { s with channel := ch, currentMessage := none }
          | none => s
        else s
      match s.currentMessage with
      | some i => { s with channel := editMsg s.channel i lastChunk false }
      | none =>
        if lastChunk.isEmpty then s
        else
          let (ch, idx) := sendMsg s.channel lastChunk false
          { s with channel := ch, currentMessage := some idx }
    else
      match s.currentMessage with
      | some i =>
        let content := ((s.channel.get? i).map RMsg.content).getD ""
        { s with channel := editMsg s.channel i content false }
      | none => s
  { s with currentMessage := none, currentText := "" }

/-- `MessageStreamer.discard`: drain the timer, delete the live message
if any, reset text and dirty. -/
def discardRun (s : MSState) : MSState :=
  let s := { s with timer := false }
  let s :=
    match s.currentMessage with
    | some i => { s with channel := s.channel.eraseIdx i, currentMessage := none }
    | none => s
  { s with currentText := "", dirty := false }

/-- The externally visible streamer operations between which the
scheduler may interleave: a text-delta append, or the debounce timer
firing. -/
inductive StreamOp
  | append (t : String)
  | fire
deriving DecidableEq, Repr

def streamRun (s : MSState) : List StreamOp → MSState
  | [] => s
  | .append t :: rest => streamRun (appendText s t) rest
  | .fire :: rest => streamRun (fireTimer s) rest

/-- The concatenation of all appended text in an operation sequence. -/
def concatAppends : List StreamOp → String
  | [] => ""
  | .append t :: rest => t ++ concatAppends rest
  | .fire :: rest => concatAppends rest

def initMS : MSState := {}

/-! ## Derived notions used by the statements below -/

/-- The streamer's reachable shapes while its text fits in one message:
either nothing was ever flushed (no live message, empty channel, and a
clean state only when no text was ever appended), or exactly one live
message exists at index 0 carrying the stop control, whose content is
up to date whenever the state is clean. -/
def StreamerOk (s : MSState) : Prop :=
  (s.currentMessage = none ∧ s.channel = [] ∧ (s.dirty = false → s.currentText = ""))
  ∨ (∃ t, s.currentMessage = some 0 ∧ s.channel = [⟨t, true⟩] ∧
      (s.dirty = false → t = s.currentText))

/-- Well-formedness: the session map's keys are duplicate-free (JS `Map`
keys always are; the association-list model records it explicitly). -/
def KeysNodup (st : SMState) : Prop :=
  (st.sessions.map (fun p => p.1)).Nodup

/-- Well-formedness: every session is stored under its own id (all
writers use `sessions.set(s.id, s)` or `sessions.set(id, session)` with
`session.id = id`). -/
def IdCoherent (st : SMState) : Prop :=
  ∀ p ∈ st.sessions, p.2.id = p.1

/-- The cancellation-bookkeeping invariant: a stored controller handle
implies the generating flag (both are always written together, with no
suspension point between the writes). -/
def InvCtl (st : SMState) : Prop :=
  ∀ p ∈ st.sessions, p.2.controller = true → p.2.isGenerating = true

/-- One registry-state transition: any of the exported session-manager
operations that change the module state. -/
inductive Step : SMState → SMState → Prop
  | create (env : Env) (name dir cid pn : String) (prov : ProviderName)
      (psid : Option String) (opts : CreateSessionOptions) (fuel : Nat)
      (st st' : SMState) (sess : Session)
      (h : createSession st env name dir cid pn prov psid opts fuel = some (.ok (st', sess))) :
      Step st st'
  | load (st st' : SMState) (w : List String) (h : loadSessions st = (st', w)) : Step st st'
  | link (sid cid : String) (st st' : SMState) (h : linkChannel st sid cid = .ok st') : Step st st'
  | unlink (cid : String) (st : SMState) : Step st (unlinkChannel st cid)
  | endS (sid : String) (st st' : SMState) (h : endSession st sid = .ok st') : Step st st'
  | model (sid m : String) (st : SMState) : Step st (setModel st sid m)
  | verbose (sid : String) (v : Bool) (st : SMState) : Step st (setVerbose st sid v)
  | mode (sid : String) (m : SessionMode) (st : SMState) : Step st (setMode st sid m)
  | persona (sid : String) (p : Option String) (st : SMState) : Step st (setAgentPersona st sid p)
  | resetPS (sid : String) (st : SMState) : Step st (resetProviderSession st sid)
  | sendStart (sid : String) (now : Nat) (st st' : SMState)
      (h : sendPromptStart st sid now = (st', none)) : Step st st'
  | contStart (sid : String) (now : Nat) (st st' : SMState)
      (h : continueSessionStart st sid now = (st', none)) : Step st st'
  | intercept (sid : String) (e : ProviderEvent) (st : SMState) :
      Step st (interceptStreamEvent st sid e).1
  | finish (sid : String) (now : Nat) (st : SMState) : Step st (finishGeneration st sid now)
  | abortS (sid : String) (st : SMState) : Step st (abortSession st sid).1
  | resultEv (sid : String) (success : Bool) (costUsd : Int)
      (durationMs numTurns : Nat) (errors : List String) (m : String) (st : SMState) :
      Step st (handleResultEvent st sid success costUsd durationMs numTurns errors m).1

/-- Registry states reachable from process start (empty maps, any
snapshot file contents) through the exported operations. -/
inductive Reach : SMState → Prop
  | init (store : Option (List SessionPersistData)) :
      Reach { sessions := [], channelToSession := [], store := store }
  | step (st st' : SMState) (h₁ : Reach st) (h₂ : Step st st') : Reach st'

/-- The deterministic id candidate sequence of the dedup loop: the
sanitized name, then the sanitized name-2, name-3, … -/
def candId (name : String) (k : Nat) : String :=
  if k ≤ 1 then sanitizeSessionName name
  else sanitizeSessionName (name ++ "-" ++ toString k)

/-- The tmux name the dedup loop pairs with a candidate id. -/
def tmuxNameOf (usesTmux : Bool) (id : String) : String :=
  if usesTmux then sessionPref ++ id else ""

/-- `n` consecutive `createSession` calls with identical arguments,
collecting the created ids in order (any failure or loop divergence
yields `none`). -/
def createSeq (env : Env) (name dir cid pn : String) (prov : ProviderName)
    (psid : Option String) (opts : CreateSessionOptions) (fuel : Nat) :
    SMState → Nat → Option (SMState × List String)
  | st, 0 => some (st, [])
  | st, n + 1 =>
    match createSeq env name dir cid pn prov psid opts fuel st n with
    | none => none
    | some (stn, ids) =>
      match createSession stn env name dir cid pn prov psid opts fuel with
      | some (.ok (st', s)) => some (st', ids ++ [s.id])
      | _ => none

/-! ## Concrete fixtures for the witness theorems -/

/-- A trivial environment: identity path resolution, everything allowed
and existing, no tmux sessions. -/
def wEnv : Env :=
  { resolvePath := id, pathAllowed := fun _ => true, dirExists := fun _ => true,
    tmuxHasSession := fun _ => false, now := 7 }

/-- A session currently generating, with its controller installed. -/
def wGenSession : Session :=
  { id := "w", channelId := "chan-9", directory := "/w", projectName := "p",
    provider := .codex, tmuxName := "", providerSessionId := some "tok-1",
    isGenerating := true, controller := true }

def wGenState : SMState := { sessions := [("w", wGenSession)] }

/-- An idle session holding a resume token. -/
def wIdleSession : Session :=
  { id := "w", channelId := "chan-9", directory := "/w", projectName := "p",
    provider := .codex, tmuxName := "", providerSessionId := some "tok-1" }

def wIdleState : SMState := { sessions := [("w", wIdleSession)] }

/-- A native SDK stream whose only message is a reported turn failure. -/
def wFailingStream : List SDKMessage :=
  [SDKMessage.resultMsg false none none none (some ["boom"])]

/-- Persisted entries for the load-dedup witness: two entries claiming
the same channel. -/
def wEntryA : SessionPersistData :=
  { id := "good-1", channelId := "chan-1", directory := "/w", projectName := "p" }

def wEntryB : SessionPersistData :=
  { id := "dup-2", channelId := "chan-1", directory := "/w", projectName := "p", messageCount := 3 }

/-- A 50-character name: the sanitizer's truncation makes every suffixed
candidate collapse back to it. -/
def longName : String := String.mk (List.replicate 50 'a')

/-- The session `createSession` builds for name "w" under `wEnv` with the
placeholder channel. -/
def wSess1 : Session :=
  { id := "w", channelId := "pending", directory := "/w", projectName := "proj",
    provider := .codex, tmuxName := "", createdAt := 7, lastActivity := 7 }

def wSt1 : SMState := { sessions := [("w", wSess1)] }

/-- A registry state whose snapshot holds the two duplicate entries. -/
def wDupStore : SMState :=
  { sessions := [], channelToSession := [], store := some [wEntryA, wEntryB] }

/-- `wSess1` mid-generation: what the `sendPrompt` prologue makes of it. -/
def wSess1g : Session :=
  { wSess1 with isGenerating := true, controller := true, lastActivity := 9 }

def wSt1g : SMState := { sessions := [("w", wSess1g)] }

/-! ## Association-list lemmas -/

theorem AList.get?_nil {α} (k : String) : AList.get? ([] : AList α) k = none := rfl

theorem AList.get?_cons {α} (p : String × α) (m : AList α) (k : String) :
    AList.get? (p :: m) k = if p.1 == k then some p.2 else AList.get? m k := by
  unfold AList.get?
  cases h : p.1 == k <;> simp [List.find?_cons, h]

theorem AList.hasKey_cons {α} (p : String × α) (m : AList α) (k : String) :
    AList.hasKey (p :: m) k = (p.1 == k || AList.hasKey m k) := by
  unfold AList.hasKey
  rw [AList.get?_cons]
  cases h : p.1 == k <;> simp [h]

theorem AList.get?_append {α} (m₁ m₂ : AList α) (k : String) :
    AList.get? (m₁ ++ m₂) k =
      (AList.get? m₁ k).or (AList.get? m₂ k) := by
  unfold AList.get?
  rw [List.find?_append]
  cases List.find? (fun p => p.1 == k) m₁ <;> simp

theorem AList.get?_set_self {α} (m : AList α) (k : String) (v : α) :
    AList.get? (AList.set m k v) k = some v := by
  unfold AList.set
  by_cases hk : AList.hasKey m k
  · simp only [hk, if_true]
    induction m with
    | nil => simp [AList.hasKey, AList.get?] at hk
    | cons p rest ih =>
      rw [AList.hasKey_cons] at hk
      by_cases hp : p.1 == k
      · simp only [List.map_cons, hp, if_true]
        rw [AList.get?_cons]
        simp
      · simp only [hp, Bool.false_or] at hk
        simp only [List.map_cons, hp, if_false, Bool.false_eq_true]
        rw [AList.get?_cons]
        simp only [hp, if_false, Bool.false_eq_true]
        exact ih hk
  · simp only [hk, if_false, Bool.false_eq_true]
    rw [AList.get?_append]
    have hnone : AList.get? m k = none := by
      unfold AList.hasKey at hk
      cases hg : AList.get? m k
      · rfl
      · rw [hg] at hk; simp at hk
    rw [hnone]
    simp [AList.get?_cons]

theorem AList.get?_mapReplace_ne {α} (m : AList α) (k k' : String) (v : α)
    (h : ¬ k' = k) :
    AList.get? (m.map (fun p => if (p.1 == k) = true then (k, v) else p)) k'
      = AList.get? m k' := by
  have hkk : ((k : String) == k') = false := by
    simp only [beq_eq_false_iff_ne, ne_eq]
    exact fun hkk => h hkk.symm
  induction m with
  | nil => rfl
  | cons p rest ih =>
    rw [List.map_cons, AList.get?_cons, AList.get?_cons]
    by_cases hp : p.1 == k
    · have hpk' : (p.1 == k') = false := by
        simp only [beq_iff_eq] at hp
        rw [hp]; exact hkk
      simp only [hp, if_true, hpk', if_false, Bool.false_eq_true, hkk]
      exact ih
    · simp only [hp, if_false, Bool.false_eq_true]
      by_cases hp' : p.1 == k'
      · simp [hp']
      · simp only [hp', if_false, Bool.false_eq_true]
        exact ih

theorem AList.get?_set_ne {α} (m : AList α) (k k' : String) (v : α) (h : ¬ k' = k) :
    AList.get? (AList.set m k v) k' = AList.get? m k' := by
  have hkk : ((k : String) == k') = false := by
    simp only [beq_eq_false_iff_ne, ne_eq]
    exact fun hkk => h hkk.symm
  unfold AList.set
  by_cases hk : AList.hasKey m k
  · simp only [hk, if_true]
    exact AList.get?_mapReplace_ne m k k' v h
  · simp only [hk, if_false, Bool.false_eq_true]
    rw [AList.get?_append, AList.get?_cons]
    simp only [hkk, if_false, AList.get?_nil, Bool.false_eq_true]
    cases AList.get? m k' <;> rfl

theorem AList.mem_set {α} (m : AList α) (k : String) (v : α) (p : String × α)
    (h : p ∈ AList.set m k v) : p = (k, v) ∨ p ∈ m := by
  unfold AList.set at h
  by_cases hk : AList.hasKey m k
  · simp only [hk, if_true] at h
    rcases List.mem_map.mp h with ⟨q, hq, hqe⟩
    by_cases hq1 : q.1 == k
    · left; rw [← hqe]; simp [hq1]
    · right; rw [← hqe]; simpa [hq1] using hq
  · simp only [hk, if_false, Bool.false_eq_true] at h
    rcases List.mem_append.mp h with h | h
    · right; exact h
    · left; simpa using h

theorem AList.mem_of_get?_eq_some {α} (m : AList α) (k : String) (v : α)
    (h : AList.get? m k = some v) : (k, v) ∈ m := by
  unfold AList.get? at h
  cases hf : List.find? (fun p => p.1 == k) m with
  | none => rw [hf] at h; simp at h
  | some q =>
    rw [hf] at h
    have hqm := List.mem_of_find?_eq_some hf
    have hq1 : (q.1 == k) = true := by
      have := List.find?_some hf
      simpa using this
    have hq : q = (k, v) := by
      cases q with
      | mk a b =>
        simp only [beq_iff_eq] at hq1
        have hb : b = v := by simpa using h
        rw [hq1, hb]
    rw [← hq]; exact hqm

theorem AList.set_fresh {α} (m : AList α) (k : String) (v : α)
    (h : AList.hasKey m k = false) : AList.set m k v = m ++ [(k, v)] := by
  unfold AList.set
  simp [h]

/-! ## Claim C1 -/

/-- Claim C1: on a session whose `isGenerating` flag is set, the shared
prologue of `sendPrompt` and of `continueSession` throws
"Session is already generating" and leaves the registry state — every
session field, the channel index, the snapshot — untouched, installing
no cancellation handle. -/
theorem sendPrompt_rejects_when_generating
    (st : SMState) (sessionId : String) (now : Nat) (s : Session)
    (hs : AList.get? st.sessions sessionId = some s)
    (hg : s.isGenerating = true) :
    sendPromptStart st sessionId now = (st, some "Session is already generating") ∧
    continueSessionStart st sessionId now = (st, some "Session is already generating") := by
  refine ⟨?_, ?_⟩
  · unfold sendPromptStart
    rw [hs]
    simp [hg]
  · unfold continueSessionStart
    rw [hs]
    simp [hg]

/-- Witness for C1 at a concrete generating session. -/
theorem sendPrompt_rejects_when_generating_witness :
    sendPromptStart wGenState "w" 5 = (wGenState, some "Session is already generating") ∧
    continueSessionStart wGenState "w" 5 = (wGenState, some "Session is already generating") :=
  sendPrompt_rejects_when_generating wGenState "w" 5 wGenSession (by decide) (by decide)

/-! ## Claim C10 -/

/-- Claim C10: when the event loop of `sendPrompt`/`continueSession`
intercepts a `session_init` event carrying the empty token, the
session's stored resume token becomes `undefined` (never the verbatim
empty string) and a persistence save is triggered in the same step. -/
theorem sessionInit_empty_token_clears
    (st : SMState) (sessionId : String) (s : Session)
    (hs : AList.get? st.sessions sessionId = some s) :
    (interceptStreamEvent st sessionId (.sessionInit "")).2 = true ∧
    AList.get? (interceptStreamEvent st sessionId (.sessionInit "")).1.sessions sessionId
      = some { s with providerSessionId := none } ∧
    (interceptStreamEvent st sessionId (.sessionInit "")).1.store
      = some (serializeSessions (interceptStreamEvent st sessionId (.sessionInit "")).1) := by
  unfold interceptStreamEvent
  rw [hs]
  refine ⟨rfl, ?_, rfl⟩
  simpa [saveSessions] using
    AList.get?_set_self st.sessions sessionId { s with providerSessionId := none }

/-- Witness for C10 at a concrete session holding a token. -/
theorem sessionInit_empty_token_clears_witness :
    (interceptStreamEvent wIdleState "w" (.sessionInit "")).2 = true ∧
    AList.get? (interceptStreamEvent wIdleState "w" (.sessionInit "")).1.sessions "w"
      = some { wIdleSession with providerSessionId := none } ∧
    (interceptStreamEvent wIdleState "w" (.sessionInit "")).1.store
      = some (serializeSessions (interceptStreamEvent wIdleState "w" (.sessionInit "")).1) :=
  sessionInit_empty_token_clears wIdleState "w" wIdleSession (by decide)

/-! ## Claim C4 -/

/-- Claim C4: the Output Streamer's `result` branch clears the session's
resume token and appends the visible reset notice exactly when the event
reports failure and none of its error strings matches an abort keyword
(case-insensitive substring over abort/cancel/interrupt/killed/signal);
on success or on an abort-classified failure the registry state — the
resume token included — is left unchanged. -/
theorem result_failure_clears_resume_token
    (st : SMState) (sessionId : String) (s : Session)
    (success : Bool) (costUsd : Int) (durationMs numTurns : Nat)
    (errors : List String) (mode : String)
    (hs : AList.get? st.sessions sessionId = some s) :
    (success = false → isAbortError errors = false →
      AList.get? (handleResultEvent st sessionId success costUsd durationMs numTurns errors mode).1.sessions sessionId
        = some { s with providerSessionId := none } ∧
      resetNotice ∈ (handleResultEvent st sessionId success costUsd durationMs numTurns errors mode).2) ∧
    (success = true ∨ isAbortError errors = true →
      (handleResultEvent st sessionId success costUsd durationMs numTurns errors mode).1 = st) := by
  constructor
  · intro hfail habort
    unfold handleResultEvent
    simp only [hfail, habort]
    constructor
    · unfold resetProviderSession
      rw [hs]
      simpa [saveSessions] using
        AList.get?_set_self st.sessions sessionId { s with providerSessionId := none }
    · simp
  · intro h
    unfold handleResultEvent
    rcases h with h | h <;> simp [h]

/-- Witness for C4: a non-abort failure clears the token and appends the
notice; an abort-classified failure leaves the state alone. -/
theorem result_failure_clears_resume_token_witness :
    (AList.get? (handleResultEvent wIdleState "w" false 0 0 0 ["boom"] "auto").1.sessions "w"
        = some { wIdleSession with providerSessionId := none } ∧
      resetNotice ∈ (handleResultEvent wIdleState "w" false 0 0 0 ["boom"] "auto").2) ∧
    (handleResultEvent wIdleState "w" false 0 0 0 ["user Abort"] "auto").1 = wIdleState := by
  constructor
  · exact (result_failure_clears_resume_token wIdleState "w" wIdleSession
      false 0 0 0 ["boom"] "auto" (by decide)).1 rfl (by decide)
  · exact (result_failure_clears_resume_token wIdleState "w" wIdleSession
      false 0 0 0 ["user Abort"] "auto" (by decide)).2 (Or.inr (by decide))

/-! ## Claim C5 (code bug) -/

/-- Claim C5 failing input: a call with a pre-existing AGENTS.md and an
empty system-prompt-parts list (the everyday auto-mode, no-persona
case).  `injectAgentsMd` writes nothing and returns `null`, yet the
guaranteed `restoreAgentsMd` in the `finally` interprets `null` as
"We created the file — remove it" and deletes the user's pre-existing
file, contradicting the restore-on-exit contract (and the function's own
comment). -/
theorem codex_cleanup_deletes_preexisting_file :
    injectAgentsMd (some "# My project instructions") [] =
      (some "# My project instructions", none) ∧
    codexAgentsMdRun (some "# My project instructions") [] = none ∧
    codexAgentsMdRun (some "# My project instructions") ["persona"] =
      some "# My project instructions" := by
  refine ⟨rfl, rfl, ?_⟩
  rfl

/-! ## Claim C2 -/

/-- One translated message never sets the retry flag once a retry already
happened or when the resume option is not a non-empty token. -/
theorem translateMsg_no_break (extractImage : String → String → Option String)
    (rid : Option String) (ar : Bool) (acc : ToolAcc) (m : SDKMessage)
    (h : ar = true ∨ truthyOpt rid = false) :
    (translateMsg extractImage rid ar acc m).2.2 = false := by
  cases m with
  | systemInit sid => rfl
  | streamEvent ev =>
    cases ev with
    | contentBlockStart toolUse name =>
      simp only [translateMsg]
      split <;> rfl
    | textDeltaEv t => rfl
    | inputJsonDeltaEv pJson =>
      simp only [translateMsg]
      split <;> rfl
    | contentBlockStop =>
      simp only [translateMsg]
      cases acc.currentToolName <;> rfl
    | otherStreamEvent => rfl
  | userMessage content => rfl
  | resultMsg success cost dur turns errs =>
    simp only [translateMsg]
    split
    · next hcond =>
      exfalso
      rcases h with h | h
      · exact hcond.2.1 h
      · rw [h] at hcond
        exact Bool.false_ne_true hcond.2.2
    · rfl
  | otherMessage => rfl

/-- The whole translation never requests a retry once a retry already
happened or without a non-empty resume token. -/
theorem runTranslate_no_retry (extractImage : String → String → Option String)
    (rid : Option String) (ar : Bool)
    (h : ar = true ∨ truthyOpt rid = false) :
    ∀ msgs acc, (runTranslate extractImage rid ar msgs acc).2 = false := by
  intro msgs
  induction msgs with
  | nil => intro acc; rfl
  | cons m rest ih =>
    intro acc
    have hb := translateMsg_no_break extractImage rid ar acc m h
    simp only [runTranslate]
    rcases htm : translateMsg extractImage rid ar acc m with ⟨evs, acc', broke⟩
    rw [htm] at hb
    simp only at hb
    rw [hb]
    simp [ih acc']

/-- The retry loop of `ClaudeProvider.sendPrompt`, reshaped as a single
conditional (the loop body runs at most twice). -/
theorem claudeSendPrompt_eq (queryFn : Option String → List SDKMessage)
    (extractImage : String → String → Option String) (rid : Option String) :
    claudeSendPrompt queryFn extractImage rid =
      (if (runTranslate extractImage rid false (queryFn rid) {}).2 then
        ((runTranslate extractImage rid false (queryFn rid) {}).1
            ++ [ProviderEvent.sessionInit ""]
            ++ (runTranslate extractImage none true (queryFn none) {}).1,
          [rid, none])
      else ((runTranslate extractImage rid false (queryFn rid) {}).1, [rid])) := rfl

/-- Same reshaping for `ClaudeProvider.continueSession`. -/
theorem claudeContinueSession_eq (queryFn : Option String → List SDKMessage)
    (extractImage : String → String → Option String) (rid : Option String) :
    claudeContinueSession queryFn extractImage rid =
      (if (runTranslate extractImage rid false (queryFn rid) {}).2 then
        ((runTranslate extractImage rid false (queryFn rid) {}).1
            ++ [ProviderEvent.sessionInit ""]
            ++ (runTranslate extractImage none true (queryFn none) {}).1,
          [rid, none])
      else ((runTranslate extractImage rid false (queryFn rid) {}).1, [rid])) := rfl

/-- Claim C2: with a non-empty resume token, a backend-reported first
attempt failure makes `ClaudeProvider.sendPrompt`/`continueSession` emit
a `session_init` carrying the empty token and run exactly one fresh
attempt with no resume token (the attempt log is the token then `none`);
the retried attempt can never request another retry; and a call without
a non-empty resume token performs exactly one attempt whatever its
outcome. -/
theorem claude_retry_once_on_failure
    (queryFn : Option String → List SDKMessage)
    (extractImage : String → String → Option String)
    (rid : Option String) :
    (truthyOpt rid = true →
      (runTranslate extractImage rid false (queryFn rid) {}).2 = true →
      claudeSendPrompt queryFn extractImage rid =
        ((runTranslate extractImage rid false (queryFn rid) {}).1
            ++ [ProviderEvent.sessionInit ""]
            ++ (runTranslate extractImage none true (queryFn none) {}).1,
          [rid, none]) ∧
      claudeContinueSession queryFn extractImage rid =
        ((runTranslate extractImage rid false (queryFn rid) {}).1
            ++ [ProviderEvent.sessionInit ""]
            ++ (runTranslate extractImage none true (queryFn none) {}).1,
          [rid, none])) ∧
    (∀ msgs acc, (runTranslate extractImage none true msgs acc).2 = false) ∧
    (truthyOpt rid = false →
      claudeSendPrompt queryFn extractImage rid =
        ((runTranslate extractImage rid false (queryFn rid) {}).1, [rid]) ∧
      claudeContinueSession queryFn extractImage rid =
        ((runTranslate extractImage rid false (queryFn rid) {}).1, [rid])) := by
  refine ⟨?_, ?_, ?_⟩
  · intro _ hf
    rw [claudeSendPrompt_eq, claudeContinueSession_eq, hf]
    exact ⟨rfl, rfl⟩
  · exact runTranslate_no_retry extractImage none true (Or.inr rfl)
  · intro ht
    have hf := runTranslate_no_retry extractImage rid false (Or.inr ht) (queryFn rid) {}
    rw [claudeSendPrompt_eq, claudeContinueSession_eq, hf]
    exact ⟨rfl, rfl⟩

/-- Witness for C2: a backend that fails the turn on every attempt, with
a known resume token.  The adapter emits the reset `session_init`, then
the single fresh retry's failure result; the attempt log shows the token
then `none`. -/
theorem claude_retry_once_on_failure_witness :
    claudeSendPrompt (fun _ => wFailingStream) (fun _ _ => none) (some "tok-1") =
      ([ProviderEvent.sessionInit "", ProviderEvent.result false 0 0 0 ["boom"]],
        [some "tok-1", none]) ∧
    claudeSendPrompt (fun _ => wFailingStream) (fun _ _ => none) none =
      ([ProviderEvent.result false 0 0 0 ["boom"]], [none]) := by
  constructor
  · have h := (claude_retry_once_on_failure (fun _ => wFailingStream)
      (fun _ _ => none) (some "tok-1")).1 (by decide) (by decide)
    rw [h.1]
    rfl
  · have h := (claude_retry_once_on_failure (fun _ => wFailingStream)
      (fun _ _ => none) none).2.2 (by decide)
    rw [h.1]
    rfl

/-! ## Claim C6 -/

theorem splitMessage_small (text : String) (h : text.length ≤ 1900) :
    splitMessage text = [text] := by
  unfold splitMessage
  rw [if_pos h]

theorem streamerOk_init : StreamerOk initMS :=
  Or.inl ⟨rfl, rfl, fun _ => rfl⟩

theorem appendText_currentText (s : MSState) (t : String) :
    (appendText s t).currentText = s.currentText ++ t := by
  cases ht : s.timer <;> simp [appendText, ht]

theorem appendText_ok (s : MSState) (t : String) (h : StreamerOk s) :
    StreamerOk (appendText s t) := by
  have hch : (appendText s t).channel = s.channel := by
    cases ht : s.timer <;> simp [appendText, ht]
  have hcm : (appendText s t).currentMessage = s.currentMessage := by
    cases ht : s.timer <;> simp [appendText, ht]
  have hd : (appendText s t).dirty = true := by
    cases ht : s.timer <;> simp [appendText, ht]
  rcases h with ⟨h1, h2, _⟩ | ⟨tt, h1, h2, _⟩
  · left
    refine ⟨by rw [hcm, h1], by rw [hch, h2], ?_⟩
    intro hdf; rw [hd] at hdf; simp at hdf
  · right
    refine ⟨tt, by rw [hcm]; exact h1, by rw [hch]; exact h2, ?_⟩
    intro hdf; rw [hd] at hdf; simp at hdf

theorem flushRun_of_clean (s : MSState) (hd : s.dirty = false) : flushRun s = s := by
  unfold flushRun
  rw [if_pos]
  simp [hd]

theorem flushRun_ok (s : MSState) (h : StreamerOk s) (hlen : s.currentText.length ≤ 1900) :
    StreamerOk (flushRun s) ∧ (flushRun s).currentText = s.currentText := by
  cases hdv : s.dirty with
  | false =>
    rw [flushRun_of_clean s hdv]
    exact ⟨h, rfl⟩
  | true =>
    have hsplit : splitMessage s.currentText = [s.currentText] :=
      splitMessage_small _ hlen
    rcases h with ⟨h1, h2, _⟩ | ⟨tt, h1, h2, _⟩
    · have heq : flushRun s =
          { channel := [⟨s.currentText, true⟩], currentMessage := some 0,
            currentText := s.currentText, dirty := false, timer := s.timer } := by
        unfold flushRun
        rw [if_neg (by simp [hdv])]
        dsimp only
        rw [hsplit]
        dsimp only [List.length_cons, List.length_nil]
        rw [if_neg (by omega), h1]
        simp [h2, sendMsg]
      rw [heq]
      exact ⟨Or.inr ⟨s.currentText, rfl, rfl, fun _ => rfl⟩, rfl⟩
    · have heq : flushRun s =
          { channel := [⟨s.currentText, true⟩], currentMessage := some 0,
            currentText := s.currentText, dirty := false, timer := s.timer } := by
        unfold flushRun
        rw [if_neg (by simp [hdv])]
        dsimp only
        rw [hsplit]
        dsimp only [List.length_cons, List.length_nil]
        rw [if_neg (by omega), h1]
        simp [h2, editMsg]
      rw [heq]
      exact ⟨Or.inr ⟨s.currentText, rfl, rfl, fun _ => rfl⟩, rfl⟩

theorem fireTimer_currentText (s : MSState) (hlen : s.currentText.length ≤ 1900)
    (h : StreamerOk s) :
    StreamerOk (fireTimer s) ∧ (fireTimer s).currentText = s.currentText := by
  unfold fireTimer
  split
  · have h' : StreamerOk { s with timer := false } := by
      rcases h with ⟨h1, h2, h3⟩ | ⟨tt, h1, h2, h3⟩
      · exact Or.inl ⟨h1, h2, h3⟩
      · exact Or.inr ⟨tt, h1, h2, h3⟩
    exact flushRun_ok { s with timer := false } h' hlen
  · exact ⟨h, rfl⟩

theorem streamRun_ok (ops : List StreamOp) : ∀ s : MSState, StreamerOk s →
    (s.currentText ++ concatAppends ops).length ≤ 1900 →
    StreamerOk (streamRun s ops) ∧
      (streamRun s ops).currentText = s.currentText ++ concatAppends ops := by
  induction ops with
  | nil =>
    intro s h _
    simpa [streamRun, concatAppends] using h
  | cons op rest ih =>
    intro s h hlen
    cases op with
    | append t =>
      have h' := appendText_ok s t h
      have htext := appendText_currentText s t
      have hlen' : ((appendText s t).currentText ++ concatAppends rest).length ≤ 1900 := by
        rw [htext, String.append_assoc]
        simpa [concatAppends] using hlen
      have hrun := ih (appendText s t) h' hlen'
      simp only [streamRun]
      refine ⟨hrun.1, ?_⟩
      rw [hrun.2, htext, String.append_assoc]
      simp [concatAppends]
    | fire =>
      have hslen : s.currentText.length ≤ 1900 := by
        rw [String.length_append] at hlen
        omega
      have hf := fireTimer_currentText s hslen h
      have hlen' : ((fireTimer s).currentText ++ concatAppends rest).length ≤ 1900 := by
        rw [hf.2]
        simpa [concatAppends] using hlen
      have hrun := ih (fireTimer s) hf.1 hlen'
      simp only [streamRun]
      refine ⟨hrun.1, ?_⟩
      rw [hrun.2, hf.2]
      simp [concatAppends]

theorem finalizeRun_ok (s : MSState) (h : StreamerOk s)
    (hne : ¬ s.currentText = "") (hlen : s.currentText.length ≤ 1900) :
    (finalizeRun s).channel = [⟨s.currentText, false⟩] := by
  have hsplit : splitMessage s.currentText = [s.currentText] :=
    splitMessage_small _ hlen
  have hempty : s.currentText.isEmpty = false := by
    cases hie : s.currentText.isEmpty
    · rfl
    · exact absurd ((String.isEmpty_iff s.currentText).mp hie) hne
  cases hdv : s.dirty with
  | true =>
    rcases h with ⟨h1, h2, _⟩ | ⟨tt, h1, h2, _⟩
    · simp only [finalizeRun]
      rw [if_pos (by simp [hdv])]
      rw [hsplit]
      dsimp only [List.length_cons, List.length_nil]
      rw [if_neg (by omega), h1]
      dsimp only
      simp [hempty, h2, sendMsg]
    · simp only [finalizeRun]
      rw [if_pos (by simp [hdv])]
      rw [hsplit]
      dsimp only [List.length_cons, List.length_nil]
      rw [if_neg (by omega), h1]
      dsimp only
      simp [h2, editMsg]
  | false =>
    rcases h with ⟨h1, h2, h3⟩ | ⟨tt, h1, h2, h3⟩
    · exact absurd (h3 hdv) hne
    · simp only [finalizeRun]
      rw [if_neg (by simp [hdv]), h1]
      dsimp only
      simp [h2, editMsg, h3 hdv]

/-- Claim C6 counterexample (the claim as frozen): a single empty
text-delta followed by finalize renders no message at all, not exactly
one message with empty content. -/
theorem streamer_empty_delta_no_message :
    (finalizeRun (streamRun initMS [StreamOp.append ""])).channel = [] ∧
    ([] : List RMsg) ≠ [⟨"", false⟩] := by
  constructor
  · rfl
  · decide

/-- Claim C6 as amended: for every sequence of text-delta appends
interleaved with debounce-timer fires followed by finalize, when the
concatenated text is nonempty (adapters only emit nonempty deltas) and
fits one message's capacity, exactly one rendered message exists, its
content is the concatenation of all deltas in order, and it carries no
interactive controls. -/
theorem streamer_single_message (ops : List StreamOp)
    (hne : ¬ concatAppends ops = "")
    (hlen : (concatAppends ops).length ≤ 1900) :
    (finalizeRun (streamRun initMS ops)).channel = [⟨concatAppends ops, false⟩] := by
  have h := streamRun_ok ops initMS streamerOk_init (by simpa [initMS] using hlen)
  have hText : (streamRun initMS ops).currentText = concatAppends ops := by
    simpa using h.2
  have hfin := finalizeRun_ok _ h.1 (by rw [hText]; exact hne) (by rw [hText]; exact hlen)
  rw [hText] at hfin
  exact hfin

/-- Witness for the amended C6 at a concrete delta/fire interleaving. -/
theorem streamer_single_message_witness :
    (finalizeRun (streamRun initMS
      [StreamOp.append "hello", StreamOp.fire, StreamOp.append " world"])).channel
      = [⟨"hello world", false⟩] := by
  have h := streamer_single_message
    [StreamOp.append "hello", StreamOp.fire, StreamOp.append " world"]
    (by decide) (by decide)
  rw [h]
  rfl

/-! ## Characterizing a successful `createSession` -/

theorem AList.hasKey_false_forall {α} (m : AList α) (k : String)
    (h : AList.hasKey m k = false) : ∀ p ∈ m, (p.1 == k) = false := by
  intro p hp
  unfold AList.hasKey AList.get? at h
  cases hf : List.find? (fun q => q.1 == k) m with
  | some q => rw [hf] at h; simp at h
  | none =>
    have := List.find?_eq_none.mp hf p hp
    simpa using this

theorem AList.mapReplace_of_all_ne {α} (m : AList α) (k : String) (v : α)
    (h : ∀ p ∈ m, (p.1 == k) = false) :
    m.map (fun p => if (p.1 == k) = true then (k, v) else p) = m := by
  induction m with
  | nil => rfl
  | cons p rest ih =>
    have hp := h p (List.mem_cons_self p rest)
    rw [List.map_cons, hp]
    simp only [Bool.false_eq_true, if_false]
    rw [ih (fun q hq => h q (List.mem_cons_of_mem p hq))]

theorem AList.nodupKeys_eq {α} (m : AList α) (p q : String × α)
    (hn : (m.map (fun r => r.1)).Nodup) (hp : p ∈ m) (hq : q ∈ m) (hk : p.1 = q.1) :
    p = q := by
  induction m with
  | nil => cases hp
  | cons r rest ih =>
    rw [List.map_cons, List.nodup_cons] at hn
    rcases List.mem_cons.mp hp with hp' | hp' <;> rcases List.mem_cons.mp hq with hq' | hq'
    · rw [hp', hq']
    · exfalso
      apply hn.1
      rw [← hp', hk]
      exact List.mem_map.mpr ⟨q, hq', rfl⟩
    · exfalso
      apply hn.1
      rw [← hq', ← hk]
      exact List.mem_map.mpr ⟨p, hp', rfl⟩
    · exact ih hn.2 hp' hq'

theorem dedupLoop_some_fresh (st : SMState) (env : Env) (u : Bool) (name : String) :
    ∀ (fuel : Nat) (id₀ t₀ : String) (suf : Nat) (id t : String),
    dedupLoop st env u name id₀ t₀ suf fuel = some (id, t) →
    AList.hasKey st.sessions id = false := by
  intro fuel
  induction fuel with
  | zero => intro id₀ t₀ suf id t h; cases h
  | succ fuel ih =>
    intro id₀ t₀ suf id t h
    unfold dedupLoop at h
    by_cases hc : (AList.hasKey st.sessions id₀ || (u && env.tmuxHasSession t₀)) = true
    · rw [if_pos hc] at h
      exact ih _ _ _ id t h
    · rw [if_neg hc] at h
      simp only [Option.some.injEq, Prod.mk.injEq] at h
      rw [← h.1]
      have hcf : (AList.hasKey st.sessions id₀ || (u && env.tmuxHasSession t₀)) = false := by
        simpa using hc
      exact (Bool.or_eq_false_iff.mp hcf).1

/-- What a successful `createSession` did: the chosen id was free, the
session record carries the requested channel id with clean generating
state, and the resulting registry state is the input plus the new
session — with the channel index extension and the snapshot write
happening only for a non-placeholder channel id. -/
theorem createSession_ok_spec (st : SMState) (env : Env)
    (name dir cid pn : String) (prov : ProviderName) (psid : Option String)
    (opts : CreateSessionOptions) (fuel : Nat) (st' : SMState) (sess : Session)
    (h : createSession st env name dir cid pn prov psid opts fuel = some (.ok (st', sess))) :
    AList.hasKey st.sessions sess.id = false ∧
    sess.channelId = cid ∧
    sess.isGenerating = false ∧ sess.controller = false ∧
    (isPlaceholderChannelId cid = true →
      st' = { st with sessions := AList.set st.sessions sess.id sess }) ∧
    (isPlaceholderChannelId cid = false →
      st' = saveSessions { st with
        sessions := AList.set st.sessions sess.id sess,
        channelToSession := AList.set st.channelToSession cid sess.id }) := by
  unfold createSession at h
  by_cases hallow : env.pathAllowed (env.resolvePath dir) = true
  swap
  · rw [if_pos (by simpa using hallow)] at h
    simp at h
  rw [if_neg (by simpa using hallow)] at h
  by_cases hex : env.dirExists (env.resolvePath dir) = true
  swap
  · rw [if_pos (by simpa using hex)] at h
    simp at h
  rw [if_neg (by simpa using hex)] at h
  simp only at h
  by_cases hrec : opts.recoverExisting = true
  · rw [if_pos hrec] at h
    by_cases hk : AList.hasKey st.sessions (sanitizeSessionName name) = true
    · rw [if_pos hk] at h
      simp at h
    · rw [if_neg hk] at h
      simp only at h
      by_cases hph : isPlaceholderChannelId cid = true
      · rw [if_neg (by simp [hph])] at h
        simp only [Option.some.injEq, Except.ok.injEq, Prod.mk.injEq] at h
        refine ⟨?_, ?_, ?_, ?_, ?_, ?_⟩
        · rw [← h.2]; simpa using hk
        · rw [← h.2]
        · rw [← h.2]
        · rw [← h.2]
        · intro _
          rw [← h.1, ← h.2]
        · intro hph'
          rw [hph] at hph'
          cases hph'
      · rw [if_pos (by simp [hph])] at h
        simp only [Option.some.injEq, Except.ok.injEq, Prod.mk.injEq] at h
        refine ⟨?_, ?_, ?_, ?_, ?_, ?_⟩
        · rw [← h.2]; simpa using hk
        · rw [← h.2]
        · rw [← h.2]
        · rw [← h.2]
        · intro hph'
          rw [hph'] at hph
          cases hph rfl
        · intro _
          rw [← h.1, ← h.2]
  · rw [if_neg hrec] at h
    rcases hd : dedupLoop st env (providerSupports prov "tmux") name
        (sanitizeSessionName name)
        (if providerSupports prov "tmux" = true then sessionPref ++ sanitizeSessionName name else "")
        1 fuel with _ | ⟨id, tmuxName⟩
    · rw [hd] at h
      simp at h
    · rw [hd] at h
      simp only at h
      have hfresh := dedupLoop_some_fresh st env (providerSupports prov "tmux") name
        fuel _ _ 1 id tmuxName hd
      by_cases hph : isPlaceholderChannelId cid = true
      · rw [if_neg (by simp [hph])] at h
        simp only [Option.some.injEq, Except.ok.injEq, Prod.mk.injEq] at h
        refine ⟨?_, ?_, ?_, ?_, ?_, ?_⟩
        · rw [← h.2]; exact hfresh
        · rw [← h.2]
        · rw [← h.2]
        · rw [← h.2]
        · intro _
          rw [← h.1, ← h.2]
        · intro hph'
          rw [hph] at hph'
          cases hph'
      · rw [if_pos (by simp [hph])] at h
        simp only [Option.some.injEq, Except.ok.injEq, Prod.mk.injEq] at h
        refine ⟨?_, ?_, ?_, ?_, ?_, ?_⟩
        · rw [← h.2]; exact hfresh
        · rw [← h.2]
        · rw [← h.2]
        · rw [← h.2]
        · intro hph'
          rw [hph'] at hph
          cases hph rfl
        · intro _
          rw [← h.1, ← h.2]

/-! ## Claim C3 -/

theorem mem_serializeSessions (st : SMState) (e : SessionPersistData)
    (he : e ∈ serializeSessions st) :
    ∃ p ∈ st.sessions, isPlaceholderChannelId p.2.channelId = false ∧
      e = persistEntryOf p.2 := by
  unfold serializeSessions at he
  rcases List.mem_filterMap.mp he with ⟨p, hp, hpe⟩
  by_cases hph : isPlaceholderChannelId p.2.channelId = true
  · rw [if_pos hph] at hpe
    cases hpe
  · rw [if_neg hph] at hpe
    exact ⟨p, hp, by simpa using hph, by simpa using hpe.symm⟩

/-- While a session's channel id is still a placeholder, no serialized
snapshot contains an entry for it (given the map well-formedness the JS
`Map` guarantees). -/
theorem serialize_absent_of_placeholder (st : SMState) (sid : String) (s : Session)
    (hget : AList.get? st.sessions sid = some s)
    (hph : isPlaceholderChannelId s.channelId = true)
    (hn : KeysNodup st) (hco : IdCoherent st) :
    ∀ e ∈ serializeSessions st, ¬ e.id = sid := by
  intro e he heq
  rcases mem_serializeSessions st e he with ⟨p, hp, hnph, hee⟩
  have hid : e.id = p.1 := by
    rw [hee]
    exact hco p hp
  have hmem : (sid, s) ∈ st.sessions := AList.mem_of_get?_eq_some _ _ _ hget
  have hpe : p = (sid, s) := by
    apply AList.nodupKeys_eq st.sessions p (sid, s) hn hp hmem
    rw [← hid, heq]
  have : isPlaceholderChannelId p.2.channelId = true := by rw [hpe]; exact hph
  rw [this] at hnph
  cases hnph

theorem keys_not_mem_of_hasKey_false {α} (m : AList α) (k : String)
    (h : AList.hasKey m k = false) : k ∉ m.map (fun p => p.1) := by
  intro hk
  rcases List.mem_map.mp hk with ⟨p, hp, hpe⟩
  have := AList.hasKey_false_forall m k h p hp
  rw [hpe] at this
  simp at this

/-- Claim C3: a session created with the placeholder channel id is not
registered in the channel index and triggers no snapshot write; it is
absent from any snapshot serialized while its channel stays the
placeholder; and once `linkChannel` assigns a real channel id, the next
snapshot (written by `linkChannel` itself) contains exactly one entry
for the session, carrying the real channel id. -/
theorem placeholder_channel_not_persisted (st : SMState) (env : Env)
    (name dir cid pn : String) (prov : ProviderName) (psid : Option String)
    (opts : CreateSessionOptions) (fuel : Nat)
    (st' : SMState) (sess : Session) (realCid : String)
    (hph : isPlaceholderChannelId cid = true)
    (hcreate : createSession st env name dir cid pn prov psid opts fuel
      = some (.ok (st', sess)))
    (hn : KeysNodup st) (hco : IdCoherent st)
    (hreal : isPlaceholderChannelId realCid = false) :
    st'.channelToSession = st.channelToSession ∧
    st'.store = st.store ∧
    (∀ e ∈ serializeSessions st', ¬ e.id = sess.id) ∧
    (∃ st'', linkChannel st' sess.id realCid = .ok st'' ∧
      st''.store = some (serializeSessions st'') ∧
      ((serializeSessions st'').filter (fun e => e.id == sess.id)).length = 1 ∧
      (∀ e ∈ serializeSessions st'', e.id = sess.id → e.channelId = realCid)) := by
  obtain ⟨hfresh, hcid, _, _, hplace, _⟩ :=
    createSession_ok_spec st env name dir cid pn prov psid opts fuel st' sess hcreate
  have hst' := hplace hph
  have hsess' : st'.sessions = st.sessions ++ [(sess.id, sess)] := by
    rw [hst']
    exact AList.set_fresh st.sessions sess.id sess hfresh
  have hallne := AList.hasKey_false_forall st.sessions sess.id hfresh
  have hn' : KeysNodup st' := by
    unfold KeysNodup
    rw [hsess', List.map_append]
    rw [List.nodup_append]
    refine ⟨hn, by simp, ?_⟩
    intro a ha hb
    simp only [List.map_cons, List.map_nil, List.mem_singleton] at hb
    rw [hb] at ha
    exact keys_not_mem_of_hasKey_false st.sessions sess.id hfresh ha
  have hco' : IdCoherent st' := by
    intro p hp
    rw [hsess'] at hp
    rcases List.mem_append.mp hp with hp | hp
    · exact hco p hp
    · simp only [List.mem_singleton] at hp
      rw [hp]
  have hget' : AList.get? st'.sessions sess.id = some sess := by
    rw [hst']
    exact AList.get?_set_self st.sessions sess.id sess
  refine ⟨by rw [hst'], by rw [hst'], ?_, ?_⟩
  · exact fun e he => serialize_absent_of_placeholder st' sess.id sess hget'
      (by rw [hcid]; exact hph) hn' hco' e he
  · -- the link step
    have hsess2 : AList.set st'.sessions sess.id { sess with channelId := realCid }
        = st.sessions ++ [(sess.id, { sess with channelId := realCid })] := by
      unfold AList.set
      have hk : AList.hasKey st'.sessions sess.id = true := by
        unfold AList.hasKey
        rw [hget']
        rfl
      rw [if_pos hk, hsess', List.map_append]
      rw [AList.mapReplace_of_all_ne st.sessions sess.id _ hallne]
      simp
    have hchans : (if ¬ isPlaceholderChannelId sess.channelId = true then
          AList.erase st'.channelToSession sess.channelId
        else st'.channelToSession) = st'.channelToSession := by
      rw [if_neg]
      simp [hcid, hph]
    have hlinkeq : linkChannel st' sess.id realCid = .ok (saveSessions { st' with
        sessions := AList.set st'.sessions sess.id { sess with channelId := realCid },
        channelToSession := AList.set st'.channelToSession realCid sess.id }) := by
      unfold linkChannel
      rw [hget']
      simp only [hchans]
    have hser : serializeSessions (saveSessions { st' with
        sessions := AList.set st'.sessions sess.id { sess with channelId := realCid },
        channelToSession := AList.set st'.channelToSession realCid sess.id })
        = serializeSessions st ++ [persistEntryOf { sess with channelId := realCid }] := by
      show List.filterMap _ (AList.set st'.sessions sess.id { sess with channelId := realCid })
        = _
      rw [hsess2, List.filterMap_append]
      congr 1
      show List.filterMap _ [(sess.id, { sess with channelId := realCid })] = _
      simp only [List.filterMap_cons, List.filterMap_nil]
      rw [if_neg (by simp [hreal])]
    have hfilterA : ∀ e ∈ serializeSessions st, (e.id == sess.id) = false := by
      intro e he
      rcases mem_serializeSessions st e he with ⟨p, hp, _, hee⟩
      have : e.id = p.1 := by rw [hee]; exact hco p hp
      rw [beq_eq_false_iff_ne, this]
      intro hk
      have := hallne p hp
      rw [hk] at this
      simp at this
    refine ⟨_, hlinkeq, rfl, ?_, ?_⟩
    · rw [hser, List.filter_append]
      have hA : List.filter (fun e => e.id == sess.id) (serializeSessions st) = [] := by
        rw [List.filter_eq_nil_iff]
        intro e he
        rw [hfilterA e he]
        simp
      rw [hA]
      simp [persistEntryOf]
    · intro e he heq
      rw [hser] at he
      rcases List.mem_append.mp he with he | he
      · have := hfilterA e he
        rw [beq_eq_false_iff_ne] at this
        exact absurd heq this
      · simp only [List.mem_singleton] at he
        rw [he]
        rfl

/-- Witness for C3: creating "w" with the placeholder channel under a
trivial environment registers no channel and writes no snapshot; linking
channel chan-42 yields a snapshot with exactly one entry for the
session. -/
theorem placeholder_channel_not_persisted_witness :
    wSt1.channelToSession = ([] : AList String) ∧
    wSt1.store = none ∧
    serializeSessions wSt1 = [] ∧
    ((serializeSessions ((linkChannel wSt1 wSess1.id "chan-42").toOption.getD {})).filter
      (fun e => e.id == wSess1.id)).length = 1 := by
  obtain ⟨h1, h2, _, st'', hlink, _, hcount, _⟩ :=
    placeholder_channel_not_persisted {} wEnv "w" "/w" "pending" "proj" .codex none {} 10
      wSt1 wSess1 "chan-42" (by decide) rfl (by simp [KeysNodup])
      (fun p hp => absurd hp (List.not_mem_nil p)) (by decide)
  refine ⟨h1, h2, rfl, ?_⟩
  rw [hlink]
  exact hcount

/-! ## Claim C9 -/

theorem AList.hasKey_append_single {α} (m : AList α) (k x : String) (v : α) :
    AList.hasKey (m ++ [(k, v)]) x = (AList.hasKey m x || (k == x)) := by
  unfold AList.hasKey
  rw [AList.get?_append]
  rw [AList.get?_cons]
  cases hg : AList.get? m x
  · cases hk : ((k : String) == x) <;> simp [hk, AList.get?_nil]
  · simp

/-- The dedup loop walks the candidate sequence: if candidates `k … m-1`
are all taken and candidate `m` is free, it stops at candidate `m`. -/
theorem dedupLoop_spec (st : SMState) (env : Env) (u : Bool) (name : String) (m : Nat) :
    ∀ (fuel k : Nat), 1 ≤ k → k ≤ m →
    (∀ j, k ≤ j → j < m →
      (AList.hasKey st.sessions (candId name j)
        || (u && env.tmuxHasSession (tmuxNameOf u (candId name j)))) = true) →
    (AList.hasKey st.sessions (candId name m)
      || (u && env.tmuxHasSession (tmuxNameOf u (candId name m)))) = false →
    m - k < fuel →
    dedupLoop st env u name (candId name k) (tmuxNameOf u (candId name k)) k fuel
      = some (candId name m, tmuxNameOf u (candId name m)) := by
  intro fuel
  induction fuel with
  | zero => intro k _ _ _ _ h5; omega
  | succ fuel ih =>
    intro k hk1 hkm htaken hfree hf
    unfold dedupLoop
    by_cases hkem : k = m
    · rw [hkem, if_neg (by rw [hfree]; simp)]
    · have hklt : k < m := lt_of_le_of_ne hkm hkem
      rw [if_pos (htaken k le_rfl hklt)]
      have hcand : sanitizeSessionName (name ++ "-" ++ toString (k + 1))
          = candId name (k + 1) := by
        unfold candId
        rw [if_neg (by omega)]
      have htm : (if u = true then sessionPref ++ sanitizeSessionName (name ++ "-" ++ toString (k + 1))
            else tmuxNameOf u (candId name k)) = tmuxNameOf u (candId name (k + 1)) := by
        rw [hcand]
        cases u <;> simp [tmuxNameOf]
      show dedupLoop st env u name (sanitizeSessionName (name ++ "-" ++ toString (k + 1)))
        (if u = true then sessionPref ++ sanitizeSessionName (name ++ "-" ++ toString (k + 1))
          else tmuxNameOf u (candId name k)) (k + 1) fuel
        = some (candId name m, tmuxNameOf u (candId name m))
      rw [htm, hcand]
      exact ih (k + 1) (by omega) (by omega)
        (fun j hj hjm => htaken j (by omega) hjm) hfree (by omega)

/-- When validation passes and the dedup loop finds a free candidate,
`createSession` succeeds and the created session carries that id. -/
theorem createSession_ok_of_dedup (st : SMState) (env : Env)
    (name dir cid pn : String) (prov : ProviderName) (psid : Option String)
    (opts : CreateSessionOptions) (fuel : Nat) (id tmuxName : String)
    (hallow : env.pathAllowed (env.resolvePath dir) = true)
    (hex : env.dirExists (env.resolvePath dir) = true)
    (hrec : opts.recoverExisting = false)
    (hd : dedupLoop st env (providerSupports prov "tmux") name
      (sanitizeSessionName name)
      (if providerSupports prov "tmux" = true then sessionPref ++ sanitizeSessionName name else "")
      1 fuel = some (id, tmuxName)) :
    ∃ st' sess, createSession st env name dir cid pn prov psid opts fuel
      = some (.ok (st', sess)) ∧ sess.id = id := by
  unfold createSession
  rw [if_neg (by simpa using hallow), if_neg (by simpa using hex)]
  simp only
  rw [if_neg (by simp [hrec]), hd]
  simp only
  by_cases hph : isPlaceholderChannelId cid = true
  · rw [if_neg (by simp [hph])]
    exact ⟨_, _, rfl, rfl⟩
  · rw [if_pos (by simp [hph])]
    exact ⟨_, _, rfl, rfl⟩

/-- Claim C9 counterexample (the claim as frozen): for a 50-character
name the sanitizer's truncation collapses every suffixed candidate back
to the base name, so a second creation under the taken name never finds
the promised distinct `name-2` id — the probe loop diverges (modelled as
fuel exhaustion at any fuel; shown here at fuel 10). -/
theorem createSession_long_name_collapse :
    sanitizeSessionName (longName ++ "-2") = sanitizeSessionName longName ∧
    sanitizeSessionName (longName ++ "-3") = sanitizeSessionName longName ∧
    (createSeq wEnv longName "/w" "pending" "proj" .codex none {} 10 {} 2).isNone := by
  refine ⟨by decide, by decide, by decide⟩

/-- Claim C9 as amended: when the sanitized suffixed candidates
`name, name-2, name-3, …` stay pairwise distinct (the 50-character
truncation does not collapse them) and are initially free (as session
ids and, for tmux-mirrored providers, as multiplexer names), `n`
consecutive creations under the same name succeed and yield exactly
those ids in creation order; the produced id list is duplicate-free, and
afterwards exactly the old ids plus the new candidates are taken, so
distinct live sessions always carry distinct ids. -/
theorem createSession_suffix_sequence (st : SMState) (env : Env)
    (name dir cid pn : String) (prov : ProviderName) (psid : Option String)
    (opts : CreateSessionOptions) (fuel n : Nat)
    (hallow : env.pathAllowed (env.resolvePath dir) = true)
    (hex : env.dirExists (env.resolvePath dir) = true)
    (hrec : opts.recoverExisting = false)
    (hfree : ∀ j, 1 ≤ j → j ≤ n → AList.hasKey st.sessions (candId name j) = false)
    (htmux : ∀ j, 1 ≤ j → j ≤ n →
      (providerSupports prov "tmux"
        && env.tmuxHasSession (tmuxNameOf (providerSupports prov "tmux") (candId name j))) = false)
    (hdist : ∀ i j, 1 ≤ i → i < j → j ≤ n → ¬ candId name i = candId name j)
    (hfuel : n ≤ fuel) :
    ∃ stn, createSeq env name dir cid pn prov psid opts fuel st n
      = some (stn, (List.range n).map (fun i => candId name (i + 1))) ∧
    ((List.range n).map (fun i => candId name (i + 1))).Nodup ∧
    (∀ x, AList.hasKey stn.sessions x = true ↔
      (AList.hasKey st.sessions x = true ∨
        x ∈ (List.range n).map (fun i => candId name (i + 1)))) := by
  have main : ∀ k, k ≤ n → ∃ stk,
      createSeq env name dir cid pn prov psid opts fuel st k
        = some (stk, (List.range k).map (fun i => candId name (i + 1))) ∧
      ((List.range k).map (fun i => candId name (i + 1))).Nodup ∧
      (∀ x, AList.hasKey stk.sessions x = true ↔
        (AList.hasKey st.sessions x = true ∨
          x ∈ (List.range k).map (fun i => candId name (i + 1)))) := by
    intro k
    induction k with
    | zero =>
      intro _
      exact ⟨st, rfl, by simp, fun x => by simp⟩
    | succ k ihk =>
      intro hkn
      obtain ⟨stk, hseq, hnodup, hkeys⟩ := ihk (by omega)
      -- candidate k+1 is not among the first k candidates
      have hnotmem : candId name (k + 1) ∉ (List.range k).map (fun i => candId name (i + 1)) := by
        intro hmem
        rcases List.mem_map.mp hmem with ⟨i, hi, hie⟩
        have hilt : i < k := List.mem_range.mp hi
        exact hdist (i + 1) (k + 1) (by omega) (by omega) (by omega) hie
      -- the dedup loop in state stk stops exactly at candidate k+1
      have htaken : ∀ j, 1 ≤ j → j < k + 1 →
          (AList.hasKey stk.sessions (candId name j)
            || (providerSupports prov "tmux"
              && env.tmuxHasSession (tmuxNameOf (providerSupports prov "tmux") (candId name j)))) = true := by
        intro j hj1 hjk
        have : AList.hasKey stk.sessions (candId name j) = true := by
          rw [hkeys]
          right
          exact List.mem_map.mpr ⟨j - 1, List.mem_range.mpr (by omega), by congr 1; omega⟩
        rw [this]
        rfl
      have hfreek : (AList.hasKey stk.sessions (candId name (k + 1))
          || (providerSupports prov "tmux"
            && env.tmuxHasSession (tmuxNameOf (providerSupports prov "tmux") (candId name (k + 1))))) = false := by
        have h1 : AList.hasKey stk.sessions (candId name (k + 1)) = false := by
          cases hb : AList.hasKey stk.sessions (candId name (k + 1))
          · rfl
          · exfalso
            rcases (hkeys _).mp hb with hb' | hb'
            · rw [hfree (k + 1) (by omega) (by omega)] at hb'
              cases hb'
            · exact hnotmem hb'
        rw [h1, htmux (k + 1) (by omega) (by omega)]
        rfl
      have hloop := dedupLoop_spec stk env (providerSupports prov "tmux") name (k + 1)
        fuel 1 le_rfl (by omega) htaken hfreek (by omega)
      have hcand1 : candId name 1 = sanitizeSessionName name := by
        unfold candId
        rw [if_pos le_rfl]
      have htm1 : tmuxNameOf (providerSupports prov "tmux") (candId name 1)
          = (if providerSupports prov "tmux" = true
              then sessionPref ++ sanitizeSessionName name else "") := by
        unfold tmuxNameOf
        rw [hcand1]
      rw [htm1, hcand1] at hloop
      obtain ⟨st', sess, hcr, hid⟩ := createSession_ok_of_dedup stk env
        name dir cid pn prov psid opts fuel (candId name (k + 1)) _
        hallow hex hrec hloop
      obtain ⟨hfreshk, _, _, _, hplace, hnoplace⟩ :=
        createSession_ok_spec stk env name dir cid pn prov psid opts fuel st' sess hcr
      have hsess' : st'.sessions = stk.sessions ++ [(sess.id, sess)] := by
        by_cases hph : isPlaceholderChannelId cid = true
        · rw [hplace hph]
          exact AList.set_fresh _ _ _ hfreshk
        · rw [hnoplace (by simpa using hph)]
          show AList.set stk.sessions sess.id sess = _
          exact AList.set_fresh _ _ _ hfreshk
      refine ⟨st', ?_, ?_, ?_⟩
      · show (match createSeq env name dir cid pn prov psid opts fuel st k with
          | none => none
          | some (stn, ids) =>
            match createSession stn env name dir cid pn prov psid opts fuel with
            | some (.ok (st', s)) => some (st', ids ++ [s.id])
            | _ => none) = _
        simp only [hseq, hcr, hid]
        rw [List.range_succ, List.map_append]
        simp
      · rw [List.range_succ, List.map_append]
        simp only [List.map_cons, List.map_nil]
        rw [List.nodup_append]
        exact ⟨hnodup, by simp, by
          intro a ha hb
          simp only [List.mem_singleton] at hb
          rw [hb] at ha
          exact hnotmem ha⟩
      · intro x
        rw [hsess', AList.hasKey_append_single, hid]
        rw [List.range_succ, List.map_append]
        constructor
        · intro hx
          rcases Bool.or_eq_true_iff.mp hx with hx | hx
          · rcases (hkeys x).mp hx with hx' | hx'
            · exact Or.inl hx'
            · exact Or.inr (List.mem_append.mpr (Or.inl hx'))
          · right
            apply List.mem_append.mpr
            right
            simp only [List.map_cons, List.map_nil, List.mem_singleton]
            exact (beq_iff_eq.mp hx).symm
        · intro hx
          apply Bool.or_eq_true_iff.mpr
          rcases hx with hx | hx
          · exact Or.inl ((hkeys x).mpr (Or.inl hx))
          · rcases List.mem_append.mp hx with hx' | hx'
            · exact Or.inl ((hkeys x).mpr (Or.inr hx'))
            · right
              simp only [List.map_cons, List.map_nil, List.mem_singleton] at hx'
              exact beq_iff_eq.mpr hx'.symm
  exact main n le_rfl

/-- Witness for the amended C9: three creations under the name "w" yield
the ids w, w-2, w-3 in order. -/
theorem createSession_suffix_sequence_witness :
    (createSeq wEnv "w" "/w" "pending" "proj" .codex none {} 10 {} 3).map
      (fun p => p.2) = some ["w", "w-2", "w-3"] := by
  obtain ⟨stn, hseq, _, _⟩ := createSession_suffix_sequence {} wEnv "w" "/w" "pending" "proj"
    .codex none {} 10 3 (by decide) (by decide) (by decide)
    (fun j h1 h2 => by unfold AList.hasKey AList.get?; rfl)
    (fun j h1 h2 => by rfl)
    (fun i j h1 h2 h3 => by
      have hi : i = 1 ∨ i = 2 := by omega
      have hj : j = 2 ∨ j = 3 := by omega
      rcases hi with rfl | rfl <;> rcases hj with rfl | rfl <;>
        first | omega | decide)
    (by omega)
  rw [hseq]
  rfl

/-! ## Claim C8 -/

theorem AList.hasKey_of_get?_some {α} (m : AList α) (k : String) (v : α)
    (h : AList.get? m k = some v) : AList.hasKey m k = true := by
  unfold AList.hasKey
  rw [h]
  rfl

theorem AList.hasKey_set_ne {α} (m : AList α) (k x : String) (v : α) (h : ¬ x = k) :
    AList.hasKey (AList.set m k v) x = AList.hasKey m x := by
  unfold AList.hasKey
  rw [AList.get?_set_ne m k x v h]

theorem AList.get?_append_left {α} (m₁ m₂ : AList α) (k : String) (v : α)
    (h : AList.get? m₁ k = some v) : AList.get? (m₁ ++ m₂) k = some v := by
  rw [AList.get?_append, h]
  rfl

/-- Stability of the load loop: once the channel `c` is claimed by `id1`
with live session `s1` and exactly one `c`-session exists, further
entries never disturb this (fresh, duplicate-free entry ids assumed, as
the drop-or-insert loop guarantees for the remaining input). -/
theorem loadEntries_stable (c id1 : String) (s1 : Session) :
    ∀ (data : List SessionPersistData) (st : SMState),
    isPlaceholderChannelId c = false →
    AList.get? st.channelToSession c = some id1 →
    AList.get? st.sessions id1 = some s1 →
    (List.filter (fun p => p.2.channelId == c) st.sessions).length = 1 →
    (∀ e ∈ data, AList.hasKey st.sessions e.id = false) →
    (data.map (fun e => e.id)).Nodup →
    AList.get? (loadEntries st data).1.channelToSession c = some id1 ∧
    AList.get? (loadEntries st data).1.sessions id1 = some s1 ∧
    (List.filter (fun p => p.2.channelId == c) (loadEntries st data).1.sessions).length = 1 := by
  intro data
  induction data with
  | nil =>
    intro st _ hA hC hB _ _
    exact ⟨hA, hC, hB⟩
  | cons e rest ih =>
    intro st hph hA hC hB hfresh hnodup
    rw [List.map_cons, List.nodup_cons] at hnodup
    by_cases hpe : isPlaceholderChannelId e.channelId = true
    · have : loadEntries st (e :: rest) =
          ((loadEntries st rest).1, true, loadWarnPlaceholder e :: (loadEntries st rest).2.2) := by
        simp only [loadEntries, hpe, if_true]
      rw [this]
      exact ih st hph hA hC hB (fun x hx => hfresh x (List.mem_cons_of_mem e hx)) hnodup.2
    · by_cases hdup : AList.hasKey st.channelToSession e.channelId = true
      · have : loadEntries st (e :: rest) =
            ((loadEntries st rest).1, true, loadWarnDuplicate e :: (loadEntries st rest).2.2) := by
          simp only [loadEntries, hpe, hdup, if_true, if_false, Bool.false_eq_true]
        rw [this]
        exact ih st hph hA hC hB (fun x hx => hfresh x (List.mem_cons_of_mem e hx)) hnodup.2
      · -- insert branch; the entry's channel cannot be c (c is claimed)
        have hce : ¬ e.channelId = c := by
          intro hc
          rw [hc] at hdup
          exact hdup (AList.hasKey_of_get?_some _ _ _ hA)
        have hfe : AList.hasKey st.sessions e.id = false :=
          hfresh e (List.mem_cons_self e rest)
        have hne1 : ¬ e.id = id1 := by
          intro hc
          rw [hc] at hfe
          rw [AList.hasKey_of_get?_some _ _ _ hC] at hfe
          cases hfe
        have hstep : loadEntries st (e :: rest) = loadEntries { st with
            sessions := AList.set st.sessions e.id (sessionOfEntry e),
            channelToSession := AList.set st.channelToSession e.channelId e.id } rest := by
          simp only [loadEntries, hpe, hdup, if_false, Bool.false_eq_true]
        rw [hstep]
        set st1 : SMState := { st with
          sessions := AList.set st.sessions e.id (sessionOfEntry e),
          channelToSession := AList.set st.channelToSession e.channelId e.id } with hst1
        have hsessapp : st1.sessions = st.sessions ++ [(e.id, sessionOfEntry e)] :=
          AList.set_fresh st.sessions e.id (sessionOfEntry e) hfe
        refine ih st1 hph ?_ ?_ ?_ ?_ hnodup.2
        · show AList.get? (AList.set st.channelToSession e.channelId e.id) c = some id1
          rw [AList.get?_set_ne _ _ _ _ (fun hc => hce hc.symm)]
          exact hA
        · rw [hsessapp]
          exact AList.get?_append_left _ _ _ _ hC
        · rw [hsessapp, List.filter_append]
          have : List.filter (fun p => p.2.channelId == c) [(e.id, sessionOfEntry e)] = [] := by
            simp only [List.filter_cons, List.filter_nil]
            rw [if_neg]
            intro hx
            exact hce (by simpa [sessionOfEntry] using hx)
          rw [this, List.append_nil]
          exact hB
        · intro x hx
          rw [hsessapp, AList.hasKey_append_single]
          rw [hfresh x (List.mem_cons_of_mem e hx)]
          have : ¬ e.id = x.id := by
            intro hc
            exact hnodup.1 (List.mem_map.mpr ⟨x, hx, hc.symm⟩)
          simp [this]

/-- Once channel `c` is claimed, the next surviving entry that claims `c`
is dropped with the duplicate warning and the cleaned flag is set, while
the claim-holder stays untouched. -/
theorem loadEntries_drops_dup (c id1 : String) (s1 : Session) :
    ∀ (data : List SessionPersistData) (st : SMState)
      (e2 : SessionPersistData) (rest' : List SessionPersistData),
    isPlaceholderChannelId c = false →
    AList.get? st.channelToSession c = some id1 →
    AList.get? st.sessions id1 = some s1 →
    (List.filter (fun p => p.2.channelId == c) st.sessions).length = 1 →
    (∀ e ∈ data, AList.hasKey st.sessions e.id = false) →
    (data.map (fun e => e.id)).Nodup →
    data.filter (fun e => e.channelId == c) = e2 :: rest' →
    AList.get? (loadEntries st data).1.channelToSession c = some id1 ∧
    AList.get? (loadEntries st data).1.sessions id1 = some s1 ∧
    (List.filter (fun p => p.2.channelId == c) (loadEntries st data).1.sessions).length = 1 ∧
    (loadEntries st data).2.1 = true ∧
    loadWarnDuplicate e2 ∈ (loadEntries st data).2.2 := by
  intro data
  induction data with
  | nil =>
    intro st e2 rest' _ _ _ _ _ _ hfil
    cases hfil
  | cons e rest ih =>
    intro st e2 rest' hph hA hC hB hfresh hnodup hfil
    rw [List.map_cons, List.nodup_cons] at hnodup
    by_cases hec : (e.channelId == c) = true
    · -- e claims c: since c is already claimed, e is dropped with the warning
      have hee2 : e = e2 := by
        rw [List.filter_cons, if_pos hec] at hfil
        exact (List.cons.injEq .. ▸ hfil).1
      have hpe : isPlaceholderChannelId e.channelId = false := by
        rw [beq_iff_eq.mp hec]
        exact hph
      have hdup : AList.hasKey st.channelToSession e.channelId = true := by
        rw [beq_iff_eq.mp hec]
        exact AList.hasKey_of_get?_some _ _ _ hA
      have hstep : loadEntries st (e :: rest) =
          ((loadEntries st rest).1, true, loadWarnDuplicate e :: (loadEntries st rest).2.2) := by
        simp only [loadEntries, hpe, hdup, if_true, if_false, Bool.false_eq_true]
      rw [hstep]
      have hstable := loadEntries_stable c id1 s1 rest st hph hA hC hB
        (fun x hx => hfresh x (List.mem_cons_of_mem e hx)) hnodup.2
      exact ⟨hstable.1, hstable.2.1, hstable.2.2, rfl,
        by rw [hee2]; exact List.mem_cons_self _ _⟩
    · -- e does not claim c
      have hfil' : rest.filter (fun x => x.channelId == c) = e2 :: rest' := by
        rw [List.filter_cons, if_neg (by simp [hec])] at hfil
        exact hfil
      by_cases hpe : isPlaceholderChannelId e.channelId = true
      · have hstep : loadEntries st (e :: rest) =
            ((loadEntries st rest).1, true, loadWarnPlaceholder e :: (loadEntries st rest).2.2) := by
          simp only [loadEntries, hpe, if_true]
        rw [hstep]
        have hrec := ih st e2 rest' hph hA hC hB
          (fun x hx => hfresh x (List.mem_cons_of_mem e hx)) hnodup.2 hfil'
        exact ⟨hrec.1, hrec.2.1, hrec.2.2.1, rfl, List.mem_cons_of_mem _ hrec.2.2.2.2⟩
      · by_cases hdup : AList.hasKey st.channelToSession e.channelId = true
        · have hstep : loadEntries st (e :: rest) =
              ((loadEntries st rest).1, true, loadWarnDuplicate e :: (loadEntries st rest).2.2) := by
            simp only [loadEntries, hpe, hdup, if_true, if_false, Bool.false_eq_true]
          rw [hstep]
          have hrec := ih st e2 rest' hph hA hC hB
            (fun x hx => hfresh x (List.mem_cons_of_mem e hx)) hnodup.2 hfil'
          exact ⟨hrec.1, hrec.2.1, hrec.2.2.1, rfl, List.mem_cons_of_mem _ hrec.2.2.2.2⟩
        · -- insert branch, channel ≠ c
          have hce : ¬ e.channelId = c := by simpa using hec
          have hfe : AList.hasKey st.sessions e.id = false :=
            hfresh e (List.mem_cons_self e rest)
          have hstep : loadEntries st (e :: rest) = loadEntries { st with
              sessions := AList.set st.sessions e.id (sessionOfEntry e),
              channelToSession := AList.set st.channelToSession e.channelId e.id } rest := by
            simp only [loadEntries, hpe, hdup, if_false, Bool.false_eq_true]
          rw [hstep]
          set st1 : SMState := { st with
            sessions := AList.set st.sessions e.id (sessionOfEntry e),
            channelToSession := AList.set st.channelToSession e.channelId e.id } with hst1
          have hsessapp : st1.sessions = st.sessions ++ [(e.id, sessionOfEntry e)] :=
            AList.set_fresh st.sessions e.id (sessionOfEntry e) hfe
          refine ih st1 e2 rest' hph ?_ ?_ ?_ ?_ hnodup.2 hfil'
          · show AList.get? (AList.set st.channelToSession e.channelId e.id) c = some id1
            rw [AList.get?_set_ne _ _ _ _ (fun hc => hce hc.symm)]
            exact hA
          · rw [hsessapp]
            exact AList.get?_append_left _ _ _ _ hC
          · rw [hsessapp, List.filter_append]
            have : List.filter (fun p => p.2.channelId == c) [(e.id, sessionOfEntry e)] = [] := by
              simp only [List.filter_cons, List.filter_nil]
              rw [if_neg]
              intro hx
              exact hce (by simpa [sessionOfEntry] using hx)
            rw [this, List.append_nil]
            exact hB
          · intro x hx
            rw [hsessapp, AList.hasKey_append_single]
            rw [hfresh x (List.mem_cons_of_mem e hx)]
            have : ¬ e.id = x.id := by
              intro hc
              exact hnodup.1 (List.mem_map.mpr ⟨x, hx, hc.symm⟩)
            simp [this]

/-- Before any entry claims `c`: the first `c`-claiming entry is
inserted and becomes the claim holder; the second is dropped with the
duplicate warning. -/
theorem loadEntries_first_wins (c : String) :
    ∀ (data : List SessionPersistData) (st : SMState)
      (e1 e2 : SessionPersistData) (rest' : List SessionPersistData),
    isPlaceholderChannelId c = false →
    AList.hasKey st.channelToSession c = false →
    (List.filter (fun p => p.2.channelId == c) st.sessions).length = 0 →
    (∀ e ∈ data, AList.hasKey st.sessions e.id = false) →
    (data.map (fun e => e.id)).Nodup →
    data.filter (fun e => e.channelId == c) = e1 :: e2 :: rest' →
    AList.get? (loadEntries st data).1.channelToSession c = some e1.id ∧
    AList.get? (loadEntries st data).1.sessions e1.id = some (sessionOfEntry e1) ∧
    (List.filter (fun p => p.2.channelId == c) (loadEntries st data).1.sessions).length = 1 ∧
    (loadEntries st data).2.1 = true ∧
    loadWarnDuplicate e2 ∈ (loadEntries st data).2.2 := by
  intro data
  induction data with
  | nil =>
    intro st e1 e2 rest' _ _ _ _ _ hfil
    cases hfil
  | cons e rest ih =>
    intro st e1 e2 rest' hph hA hB hfresh hnodup hfil
    rw [List.map_cons, List.nodup_cons] at hnodup
    by_cases hec : (e.channelId == c) = true
    · -- e is the first entry claiming c: it is inserted
      have hee1 : e = e1 ∧ rest.filter (fun x => x.channelId == c) = e2 :: rest' := by
        rw [List.filter_cons, if_pos hec] at hfil
        exact ⟨(List.cons.injEq .. ▸ hfil).1, (List.cons.injEq .. ▸ hfil).2⟩
      have hpe : isPlaceholderChannelId e.channelId = false := by
        rw [beq_iff_eq.mp hec]
        exact hph
      have hdup : AList.hasKey st.channelToSession e.channelId = false := by
        rw [beq_iff_eq.mp hec]
        exact hA
      have hfe : AList.hasKey st.sessions e.id = false :=
        hfresh e (List.mem_cons_self e rest)
      have hstep : loadEntries st (e :: rest) = loadEntries { st with
          sessions := AList.set st.sessions e.id (sessionOfEntry e),
          channelToSession := AList.set st.channelToSession e.channelId e.id } rest := by
        simp only [loadEntries, hpe, hdup, if_false, Bool.false_eq_true]
      rw [hstep]
      set st1 : SMState := { st with
        sessions := AList.set st.sessions e.id (sessionOfEntry e),
        channelToSession := AList.set st.channelToSession e.channelId e.id } with hst1
      have hsessapp : st1.sessions = st.sessions ++ [(e.id, sessionOfEntry e)] :=
        AList.set_fresh st.sessions e.id (sessionOfEntry e) hfe
      have hres := loadEntries_drops_dup c e.id (sessionOfEntry e) rest st1 e2 rest' hph
        (by
          show AList.get? (AList.set st.channelToSession e.channelId e.id) c = some e.id
          rw [beq_iff_eq.mp hec]
          exact AList.get?_set_self _ _ _)
        (by
          show AList.get? (AList.set st.sessions e.id (sessionOfEntry e)) e.id = _
          exact AList.get?_set_self _ _ _)
        (by
          rw [hsessapp, List.filter_append]
          have : List.filter (fun p => p.2.channelId == c) [(e.id, sessionOfEntry e)]
              = [(e.id, sessionOfEntry e)] := by
            simp only [List.filter_cons, List.filter_nil]
            rw [if_pos]
            show ((sessionOfEntry e).channelId == c) = true
            simpa [sessionOfEntry] using hec
          rw [this, List.length_append, hB]
          rfl)
        (by
          intro x hx
          rw [hsessapp, AList.hasKey_append_single]
          rw [hfresh x (List.mem_cons_of_mem e hx)]
          have : ¬ e.id = x.id := by
            intro hc
            exact hnodup.1 (List.mem_map.mpr ⟨x, hx, hc.symm⟩)
          simp [this])
        hnodup.2 hee1.2
      rw [hee1.1] at hres
      exact hres
    · -- e does not claim c
      have hfil' : rest.filter (fun x => x.channelId == c) = e1 :: e2 :: rest' := by
        rw [List.filter_cons, if_neg (by simp [hec])] at hfil
        exact hfil
      have hce : ¬ e.channelId = c := by simpa using hec
      by_cases hpe : isPlaceholderChannelId e.channelId = true
      · have hstep : loadEntries st (e :: rest) =
            ((loadEntries st rest).1, true, loadWarnPlaceholder e :: (loadEntries st rest).2.2) := by
          simp only [loadEntries, hpe, if_true]
        rw [hstep]
        have hrec := ih st e1 e2 rest' hph hA hB
          (fun x hx => hfresh x (List.mem_cons_of_mem e hx)) hnodup.2 hfil'
        exact ⟨hrec.1, hrec.2.1, hrec.2.2.1, rfl, List.mem_cons_of_mem _ hrec.2.2.2.2⟩
      · by_cases hdup : AList.hasKey st.channelToSession e.channelId = true
        · have hstep : loadEntries st (e :: rest) =
              ((loadEntries st rest).1, true, loadWarnDuplicate e :: (loadEntries st rest).2.2) := by
            simp only [loadEntries, hpe, hdup, if_true, if_false, Bool.false_eq_true]
          rw [hstep]
          have hrec := ih st e1 e2 rest' hph hA hB
            (fun x hx => hfresh x (List.mem_cons_of_mem e hx)) hnodup.2 hfil'
          exact ⟨hrec.1, hrec.2.1, hrec.2.2.1, rfl, List.mem_cons_of_mem _ hrec.2.2.2.2⟩
        · have hfe : AList.hasKey st.sessions e.id = false :=
            hfresh e (List.mem_cons_self e rest)
          have hstep : loadEntries st (e :: rest) = loadEntries { st with
              sessions := AList.set st.sessions e.id (sessionOfEntry e),
              channelToSession := AList.set st.channelToSession e.channelId e.id } rest := by
            simp only [loadEntries, hpe, hdup, if_false, Bool.false_eq_true]
          rw [hstep]
          set st1 : SMState := { st with
            sessions := AList.set st.sessions e.id (sessionOfEntry e),
            channelToSession := AList.set st.channelToSession e.channelId e.id } with hst1
          have hsessapp : st1.sessions = st.sessions ++ [(e.id, sessionOfEntry e)] :=
            AList.set_fresh st.sessions e.id (sessionOfEntry e) hfe
          refine ih st1 e1 e2 rest' hph ?_ ?_ ?_ hnodup.2 hfil'
          · show AList.hasKey (AList.set st.channelToSession e.channelId e.id) c = false
            rw [AList.hasKey_set_ne _ _ _ _ (fun hc => hce hc.symm)]
            exact hA
          · rw [hsessapp, List.filter_append]
            have : List.filter (fun p => p.2.channelId == c) [(e.id, sessionOfEntry e)] = [] := by
              simp only [List.filter_cons, List.filter_nil]
              rw [if_neg]
              intro hx
              exact hce (by simpa [sessionOfEntry] using hx)
            rw [this, List.append_nil]
            exact hB
          · intro x hx
            rw [hsessapp, AList.hasKey_append_single]
            rw [hfresh x (List.mem_cons_of_mem e hx)]
            have : ¬ e.id = x.id := by
              intro hc
              exact hnodup.1 (List.mem_map.mpr ⟨x, hx, hc.symm⟩)
            simp [this]

/-- Claim C8: loading a snapshot in which two entries claim the same
(real) channel id yields exactly one live session for that channel — the
one from the first entry encountered — drops the other with the
duplicate warning, and re-saves the cleaned state to the snapshot.
(The snapshot's entry ids are assumed duplicate-free and nonempty, as
every snapshot written by the registry's id-keyed map is.) -/
theorem load_dedup_first_wins (data : List SessionPersistData) (c : String)
    (e1 e2 : SessionPersistData) (rest' : List SessionPersistData)
    (hph : isPlaceholderChannelId c = false)
    (hfil : data.filter (fun e => e.channelId == c) = e1 :: e2 :: rest')
    (hn : (data.map (fun e => e.id)).Nodup)
    (hne : ∀ e ∈ data, ¬ e.id = "") :
    getSessionByChannel
      (loadSessions { sessions := [], channelToSession := [], store := some data }).1 c
      = some (sessionOfEntry e1) ∧
    (List.filter (fun p => p.2.channelId == c)
      (loadSessions { sessions := [], channelToSession := [], store := some data }).1.sessions).length = 1 ∧
    loadWarnDuplicate e2 ∈
      (loadSessions { sessions := [], channelToSession := [], store := some data }).2 ∧
    (loadSessions { sessions := [], channelToSession := [], store := some data }).1.store
      = some (serializeSessions
        (loadSessions { sessions := [], channelToSession := [], store := some data }).1) := by
  have hcore := loadEntries_first_wins c data
    { sessions := [], channelToSession := [], store := some data } e1 e2 rest'
    hph rfl rfl (fun e _ => rfl) hn hfil
  have he1id : ¬ e1.id = "" := by
    apply hne
    have : e1 ∈ data.filter (fun e => e.channelId == c) := by
      rw [hfil]
      exact List.mem_cons_self _ _
    exact List.mem_of_mem_filter this
  have hload : loadSessions { sessions := [], channelToSession := [], store := some data }
      = (saveSessions (loadEntries { sessions := [], channelToSession := [], store := some data } data).1,
        (loadEntries { sessions := [], channelToSession := [], store := some data } data).2.2) := by
    show ((if (loadEntries { sessions := [], channelToSession := [], store := some data } data).2.1
        then saveSessions (loadEntries { sessions := [], channelToSession := [], store := some data } data).1
        else (loadEntries { sessions := [], channelToSession := [], store := some data } data).1),
      (loadEntries { sessions := [], channelToSession := [], store := some data } data).2.2) = _
    rw [hcore.2.2.2.1]
    simp
  rw [hload]
  refine ⟨?_, ?_, hcore.2.2.2.2, rfl⟩
  · unfold getSessionByChannel
    show (match AList.get? (loadEntries _ data).1.channelToSession c with
      | some id => if id.isEmpty then none else
          AList.get? (loadEntries _ data).1.sessions id
      | none => none) = _
    rw [hcore.1]
    show (if e1.id.isEmpty = true then none
      else AList.get?
        (loadEntries { sessions := [], channelToSession := [], store := some data } data).1.sessions
        e1.id) = _
    rw [if_neg (by simpa [String.isEmpty_iff] using he1id)]
    exact hcore.2.1
  · exact hcore.2.2.1

/-- Witness for C8: a snapshot whose two entries both claim chan-1. -/
theorem load_dedup_first_wins_witness :
    getSessionByChannel (loadSessions wDupStore).1 "chan-1"
      = some (sessionOfEntry wEntryA) ∧
    (List.filter (fun p => p.2.channelId == "chan-1")
      (loadSessions wDupStore).1.sessions).length = 1 ∧
    loadWarnDuplicate wEntryB ∈ (loadSessions wDupStore).2 ∧
    (loadSessions wDupStore).1.store
      = some (serializeSessions (loadSessions wDupStore).1) :=
  load_dedup_first_wins [wEntryA, wEntryB] "chan-1" wEntryA wEntryB []
    (by decide) (by decide) (by decide) (by decide)

/-! ## Claim C7 -/

theorem invCtl_set_preserve (st st' : SMState) (h : InvCtl st) (k : String) (v : Session)
    (hv : v.controller = true → v.isGenerating = true)
    (hs : st'.sessions = AList.set st.sessions k v) : InvCtl st' := by
  intro p hp
  rw [hs] at hp
  rcases AList.mem_set _ _ _ _ hp with hpe | hpm
  · rw [hpe]
    exact hv
  · exact h p hpm

theorem invCtl_same (st st' : SMState) (h : InvCtl st)
    (hs : st'.sessions = st.sessions) : InvCtl st' := by
  intro p hp
  exact h p (hs ▸ hp)

theorem invCtl_erase (st st' : SMState) (h : InvCtl st) (k : String)
    (hs : st'.sessions = AList.erase st.sessions k) : InvCtl st' := by
  intro p hp
  rw [hs] at hp
  exact h p (List.mem_of_mem_filter hp)

/-- A session update that keeps a session's two flags preserves the
controller invariant. -/
theorem invCtl_update_flags (st st' : SMState) (h : InvCtl st)
    (k : String) (s v : Session)
    (hg : AList.get? st.sessions k = some s)
    (hc : v.controller = s.controller) (hi : v.isGenerating = s.isGenerating)
    (hs : st'.sessions = AList.set st.sessions k v) : InvCtl st' := by
  refine invCtl_set_preserve st st' h k v ?_ hs
  intro hctrl
  rw [hi]
  apply h (k, s) (AList.mem_of_get?_eq_some _ _ _ hg)
  rw [← hc]
  exact hctrl

theorem invCtl_loadEntries (data : List SessionPersistData) :
    ∀ st : SMState, InvCtl st → InvCtl (loadEntries st data).1 := by
  induction data with
  | nil => intro st h; exact h
  | cons e rest ih =>
    intro st h
    by_cases hpe : isPlaceholderChannelId e.channelId = true
    · have : (loadEntries st (e :: rest)).1 = (loadEntries st rest).1 := by
        simp only [loadEntries, hpe, if_true]
      rw [this]
      exact ih st h
    · by_cases hdup : AList.hasKey st.channelToSession e.channelId = true
      · have : (loadEntries st (e :: rest)).1 = (loadEntries st rest).1 := by
          simp only [loadEntries, hpe, hdup, if_true, if_false, Bool.false_eq_true]
        rw [this]
        exact ih st h
      · have : (loadEntries st (e :: rest)).1 = (loadEntries { st with
            sessions := AList.set st.sessions e.id (sessionOfEntry e),
            channelToSession := AList.set st.channelToSession e.channelId e.id } rest).1 := by
          simp only [loadEntries, hpe, hdup, if_false, Bool.false_eq_true]
        rw [this]
        apply ih
        exact invCtl_set_preserve st _ h e.id (sessionOfEntry e)
          (fun hctrl => by simp [sessionOfEntry] at hctrl) rfl

/-- Every registry operation preserves the controller invariant. -/
theorem invCtl_step (st st' : SMState) (h : InvCtl st) (hs : Step st st') : InvCtl st' := by
  cases hs with
  | create env name dir cid pn prov psid opts fuel st st' sess hc =>
    obtain ⟨_, _, _, hctrl, hplace, hnoplace⟩ :=
      createSession_ok_spec st env name dir cid pn prov psid opts fuel st' sess hc
    by_cases hph : isPlaceholderChannelId cid = true
    · exact invCtl_set_preserve st st' h sess.id sess
        (fun hx => by rw [hctrl] at hx; cases hx) (by rw [hplace hph])
    · exact invCtl_set_preserve st st' h sess.id sess
        (fun hx => by rw [hctrl] at hx; cases hx)
        (by rw [hnoplace (by simpa using hph)]; rfl)
  | load st st' w hl =>
    unfold loadSessions at hl
    cases hst : st.store with
    | none =>
      rw [hst] at hl
      have : st' = st := by
        have := congrArg Prod.fst hl
        simpa using this.symm
      rw [this]
      exact h
    | some data =>
      rw [hst] at hl
      have hinv := invCtl_loadEntries data st h
      by_cases hcl : (loadEntries st data).2.1 = true
      · have : st' = saveSessions (loadEntries st data).1 := by
          have := congrArg Prod.fst hl
          simp only [hcl, if_true] at this
          exact this.symm
        rw [this]
        exact invCtl_same _ _ hinv rfl
      · have : st' = (loadEntries st data).1 := by
          have := congrArg Prod.fst hl
          simp only [hcl, if_false, Bool.false_eq_true] at this
          exact this.symm
        rw [this]
        exact hinv
  | link sid cid st st' hl =>
    unfold linkChannel at hl
    cases hg : AList.get? st.sessions sid with
    | none => rw [hg] at hl; cases hl
    | some s =>
      rw [hg] at hl
      simp only [Except.ok.injEq] at hl
      refine invCtl_update_flags st st' h sid s { s with channelId := cid } hg rfl rfl ?_
      rw [← hl]
      rfl
  | unlink cid st =>
    unfold unlinkChannel
    cases hg : AList.get? st.channelToSession cid with
    | some sid =>
      simp only [hg]
      exact invCtl_erase st _ h sid rfl
    | none =>
      cases hf : List.find? (fun p => p.2.channelId == cid) st.sessions with
      | none =>
        simp only [hg, hf, Option.map_none]
        exact h
      | some q =>
        simp only [hg, hf, Option.map_some]
        exact invCtl_erase st _ h q.1 rfl
  | endS sid st st' he =>
    unfold endSession at he
    cases hg : AList.get? st.sessions sid with
    | none => rw [hg] at he; cases he
    | some s =>
      rw [hg] at he
      simp only [Except.ok.injEq] at he
      exact invCtl_erase st st' h sid (by rw [← he]; rfl)
  | model sid m st =>
    unfold setModel
    cases hg : AList.get? st.sessions sid with
    | none => exact h
    | some s => exact invCtl_update_flags st _ h sid s { s with model := some m } hg rfl rfl rfl
  | verbose sid v st =>
    unfold setVerbose
    cases hg : AList.get? st.sessions sid with
    | none => exact h
    | some s => exact invCtl_update_flags st _ h sid s { s with verbose := v } hg rfl rfl rfl
  | mode sid m st =>
    unfold setMode
    cases hg : AList.get? st.sessions sid with
    | none => exact h
    | some s => exact invCtl_update_flags st _ h sid s { s with mode := m } hg rfl rfl rfl
  | persona sid p st =>
    unfold setAgentPersona
    cases hg : AList.get? st.sessions sid with
    | none => exact h
    | some s => exact invCtl_update_flags st _ h sid s { s with agentPersona := p } hg rfl rfl rfl
  | resetPS sid st =>
    unfold resetProviderSession
    cases hg : AList.get? st.sessions sid with
    | none => exact h
    | some s =>
      exact invCtl_update_flags st _ h sid s { s with providerSessionId := none } hg rfl rfl rfl
  | sendStart sid now st st' hl =>
    unfold sendPromptStart at hl
    cases hg : AList.get? st.sessions sid with
    | none =>
      rw [hg] at hl
      simp at hl
    | some s =>
      rw [hg] at hl
      cases hig : s.isGenerating with
      | true => simp [hig] at hl
      | false =>
        simp only [hig, Bool.false_eq_true, if_false, Prod.mk.injEq, and_true] at hl
        refine invCtl_set_preserve st st' h sid { s with controller := true, isGenerating := true, lastActivity := now } (fun _ => rfl) ?_
        rw [← hl]
  | contStart sid now st st' hl =>
    unfold continueSessionStart at hl
    cases hg : AList.get? st.sessions sid with
    | none =>
      rw [hg] at hl
      simp at hl
    | some s =>
      rw [hg] at hl
      cases hig : s.isGenerating with
      | true => simp [hig] at hl
      | false =>
        simp only [hig, Bool.false_eq_true, if_false, Prod.mk.injEq, and_true] at hl
        refine invCtl_set_preserve st st' h sid { s with controller := true, isGenerating := true, lastActivity := now } (fun _ => rfl) ?_
        rw [← hl]
  | intercept sid e st =>
    unfold interceptStreamEvent
    cases hg : AList.get? st.sessions sid with
    | none => exact h
    | some s =>
      cases e with
      | sessionInit tok =>
        exact invCtl_update_flags st _ h sid s
          { s with providerSessionId := if tok.isEmpty then none else some tok } hg rfl rfl rfl
      | result success costUsd durationMs numTurns errors =>
        exact invCtl_update_flags st _ h sid s
          { s with totalCost := s.totalCost + costUsd } hg rfl rfl rfl
      | textDelta t => exact h
      | toolStart a b => exact h
      | toolResult a b c => exact h
      | askUser a => exact h
      | task a b => exact h
      | imageFile a => exact h
      | commandExecution a b c d => exact h
      | fileChange a => exact h
      | reasoning a => exact h
      | todoList a => exact h
      | errorEvent a => exact h
  | finish sid now st =>
    unfold finishGeneration
    cases hg : AList.get? st.sessions sid with
    | none => exact h
    | some s =>
      exact invCtl_set_preserve st _ h sid _ (fun hx => by cases hx) rfl
  | abortS sid st =>
    unfold abortSession
    cases hg : AList.get? st.sessions sid with
    | none => exact h
    | some s =>
      show InvCtl (if s.isGenerating = true then (saveSessions { st with sessions := AList.set st.sessions sid { s with isGenerating := false, controller := false } }, true) else (st, s.controller)).1
      by_cases hig : s.isGenerating = true
      · rw [if_pos hig]
        exact invCtl_set_preserve st _ h sid _ (fun hx => by cases hx) rfl
      · rw [if_neg hig]
        exact h
  | resultEv sid success costUsd durationMs numTurns errors m st =>
    unfold handleResultEvent
    by_cases hcond : (¬ success = true ∧ ¬ isAbortError errors = true)
    · rw [if_pos hcond]
      show InvCtl (resetProviderSession st sid)
      unfold resetProviderSession
      cases hg : AList.get? st.sessions sid with
      | none => exact h
      | some s =>
        exact invCtl_update_flags st _ h sid s { s with providerSessionId := none } hg rfl rfl rfl
    · rw [if_neg hcond]
      exact h

/-- Every reachable registry state satisfies the controller invariant. -/
theorem invCtl_reach (st : SMState) (h : Reach st) : InvCtl st := by
  induction h with
  | init store => intro p hp; cases hp
  | step st st' h₁ h₂ ih => exact invCtl_step st st' ih h₂

/-- Claim C7: whenever `abortSession` returns true on a reachable
registry state, the session's generating flag has been cleared and its
stored cancellation handle removed — whether or not the adapter stream
ever observes the abort signal. -/
theorem abortSession_true_clears (st : SMState) (sid : String) (st' : SMState)
    (hr : Reach st) (h : abortSession st sid = (st', true)) :
    ∃ s, AList.get? st'.sessions sid = some s ∧
      s.isGenerating = false ∧ s.controller = false := by
  have hinv := invCtl_reach st hr
  unfold abortSession at h
  cases hg : AList.get? st.sessions sid with
  | none =>
    rw [hg] at h
    cases (Prod.mk.injEq .. ▸ h).2
  | some s =>
    rw [hg] at h
    have h' : (if s.isGenerating = true then (saveSessions { st with sessions := AList.set st.sessions sid { s with isGenerating := false, controller := false } }, true) else (st, s.controller)) = (st', true) := h
    by_cases hig : s.isGenerating = true
    · rw [if_pos hig] at h'
      have hst' : st' = saveSessions { st with sessions := AList.set st.sessions sid { s with isGenerating := false, controller := false } } := (Prod.mk.injEq .. ▸ h').1.symm
      refine ⟨{ s with isGenerating := false, controller := false }, ?_, rfl, rfl⟩
      rw [hst']
      exact AList.get?_set_self st.sessions sid _
    · rw [if_neg hig] at h'
      exfalso
      have hctrl : s.controller = true := (Prod.mk.injEq .. ▸ h').2
      have := hinv (sid, s) (AList.mem_of_get?_eq_some _ _ _ hg) hctrl
      exact hig this

/-- Witness for C7: the state reached by creating session "w" and
starting a generation; aborting returns true and clears both flags. -/
theorem abortSession_true_clears_witness :
    ((AList.get? (abortSession wSt1g "w").1.sessions "w").map
      (fun s => (s.isGenerating, s.controller))) = some (false, false) ∧
    (abortSession wSt1g "w").2 = true := by
  have hreach : Reach wSt1g :=
    Reach.step wSt1 wSt1g
      (Reach.step { sessions := [], channelToSession := [], store := none } wSt1
        (Reach.init none)
        (Step.create wEnv "w" "/w" "pending" "proj" .codex none {} 10 _ wSt1 wSess1 rfl))
      (Step.sendStart "w" 9 wSt1 wSt1g rfl)
  obtain ⟨s, hs, h1, h2⟩ := abortSession_true_clears wSt1g "w" (abortSession wSt1g "w").1
    hreach rfl
  refine ⟨?_, rfl⟩
  rw [hs]
  simp [h1, h2]

end Agentcord
